import Mathlib

/-!
Verification development for the rust-tftp client library.

The Rust source is shallowly embedded: byte buffers become `List Nat`
(each element a byte value), `u16` arithmetic is `Nat` with explicit
`% 65536`, fallible operations return `Except IoError`, and the
`HashMap<String, String>` option maps become key-sorted association
lists of byte strings.  The transfer engine (`receive_loop` in
`common.rs` together with the GET/PUT callbacks in `client.rs`) becomes
a deterministic step function over an explicit state, driven by the
selected event (receive timeout, resend timeout, or an inbound packet).
-/

deriving instance DecidableEq for Except

namespace Tftp

/-- Byte strings: each element is one byte (0 ≤ b < 256 for real data). -/
abbrev Bytes := List Nat

/-- ASCII bytes of a Lean string literal, used for the fixed protocol
strings ("octet", "blksize", "Unknown TID", ...). -/
def strBytes (s : String) : Bytes := s.data.map Char.toNat

/-- `protocol.rs`: transfer mode `NetAscii | Octet`. -/
inductive Mode
  | netAscii
  | octet
deriving DecidableEq, Repr

/-- `protocol.rs`: `RolloverMethod { Zero = 0, One = 1 }`. -/
inductive RolloverMethod
  | zero
  | one
deriving DecidableEq, Repr

/-- Numeric value of a rollover method (`r as u16` in the Rust source). -/
def rolloverVal : RolloverMethod → Nat
  | .zero => 0
  | .one => 1

/-- Wire string of a rollover method (its `Show` instance). -/
def rolloverBytes : RolloverMethod → Bytes
  | .zero => strBytes "0"
  | .one => strBytes "1"

/-- `protocol.rs`: the TFTP error-code enumeration. -/
inductive TftpError
  | undefined
  | fileNotFound
  | accessViolation
  | diskFull
  | illegalOperation
  | unknownTransferId
  | fileAlreadyExists
  | noSuchUser
  | optionNegotiationRejected
deriving DecidableEq, Repr

/-- Wire code of a TFTP error (the enum discriminant). -/
def errCode : TftpError → Nat
  | .undefined => 0
  | .fileNotFound => 1
  | .accessViolation => 2
  | .diskFull => 3
  | .illegalOperation => 4
  | .unknownTransferId => 5
  | .fileAlreadyExists => 6
  | .noSuchUser => 7
  | .optionNegotiationRejected => 8

/-- `Error::from_u16` in `protocol.rs`. -/
def errFromCode : Nat → Option TftpError
  | 0 => some .undefined
  | 1 => some .fileNotFound
  | 2 => some .accessViolation
  | 3 => some .diskFull
  | 4 => some .illegalOperation
  | 5 => some .unknownTransferId
  | 6 => some .fileAlreadyExists
  | 7 => some .noSuchUser
  | 8 => some .optionNegotiationRejected
  | _ => none

/-- Kinds of `std::io::IoError` that this code distinguishes. -/
inductive IoErrorKind
  | endOfFile
  | invalidInput
  | connectionAborted
  | otherIoError
deriving DecidableEq, Repr

/-- Shallow model of `std::io::IoError`. -/
structure IoError where
  kind : IoErrorKind
  desc : String
  detail : Option Bytes := none
deriving DecidableEq, Repr

/-- `invalid_input_error` in `protocol.rs`. -/
def invalidInputError (desc : String) : IoError :=
  { kind := .invalidInput, desc := desc, detail := none }

/-- The standard end-of-file error raised by readers. -/
def eofError : IoError :=
  { kind := .endOfFile, desc := "end of file", detail := none }

/-- The error returned by `receive_loop` when the receive timer fires. -/
def connTimeoutError : IoError :=
  { kind := .connectionAborted, desc := "Connection timeout", detail := none }

/-- Option maps (`HashMap<String, String>` in Rust), embedded as
key-sorted duplicate-free association lists of byte strings. -/
abbrev Options := List (Bytes × Bytes)

/-- Strict lexicographic order on byte strings, used to keep the
association-list embedding of a hash map canonical. -/
def bytesLt : Bytes → Bytes → Bool
  | [], [] => false
  | [], _ :: _ => true
  | _ :: _, [] => false
  | a :: as, b :: bs => if a < b then true else if b < a then false else bytesLt as bs

/-- `HashMap::insert`: replaces the value if the key is present,
otherwise inserts at the (canonical) sorted position. -/
def Options.insert : Options → Bytes → Bytes → Options
  | [], k, v => [(k, v)]
  | (k0, v0) :: rest, k, v =>
    if k = k0 then (k, v) :: rest
    else if bytesLt k k0 then (k, v) :: (k0, v0) :: rest
    else (k0, v0) :: Options.insert rest k v

/-- `HashMap::find` on the association-list embedding. -/
def Options.find : Options → Bytes → Option Bytes
  | [], _ => none
  | (k0, v0) :: rest, k => if k = k0 then some v0 else Options.find rest k

/-- `to_ascii_lower` on one byte. -/
def lowerByte (b : Nat) : Nat := if 65 ≤ b ∧ b ≤ 90 then b + 32 else b

/-- The six packet variants of `protocol.rs`. -/
inductive Packet
  | readRequest (filename : Bytes) (mode : Mode) (opts : Options)
  | writeRequest (filename : Bytes) (mode : Mode) (opts : Options)
  | data (blockId : Nat) (payload : Bytes)
  | acknowledgment (blockId : Nat)
  | error (err : TftpError) (msg : Bytes)
  | optionAcknowledgment (opts : Options)
deriving DecidableEq, Repr

/-- `Packet::opcode` as its numeric wire value. -/
def Packet.opcodeVal : Packet → Nat
  | .readRequest .. => 1
  | .writeRequest .. => 2
  | .data .. => 3
  | .acknowledgment .. => 4
  | .error .. => 5
  | .optionAcknowledgment .. => 6

/-- `Packet::is_option_ack`. -/
def Packet.isOptionAck : Packet → Bool
  | .optionAcknowledgment .. => true
  | _ => false

/-- Whether a packet is an `Error` packet. -/
def Packet.isError : Packet → Bool
  | .error .. => true
  | _ => false

/-- `write_be_u16`: big-endian 16-bit write. -/
def write_be_u16 (n : Nat) : Bytes := [n / 256 % 256, n % 256]

/-- `read_be_u16`: big-endian 16-bit read, end-of-file on a short buffer. -/
def read_be_u16 : Bytes → Except IoError (Nat × Bytes)
  | a :: b :: rest => .ok (a * 256 + b, rest)
  | _ => .error eofError

/-- The `Show` string of a `Mode` ("netascii" / "octet"). -/
def mode_bytes : Mode → Bytes
  | .netAscii => strBytes "netascii"
  | .octet => strBytes "octet"

/-- `Mode::from_str`. -/
def modeFromBytes (s : Bytes) : Option Mode :=
  if s = strBytes "netascii" then some .netAscii
  else if s = strBytes "octet" then some .octet
  else none

/-- `Packet::encode_options`: each pair as `key 0x00 value 0x00`,
iterating the map in its (canonical) order. -/
def encode_options : Options → Bytes
  | [] => []
  | (k, v) :: rest => k ++ [0] ++ v ++ [0] ++ encode_options rest

/-- One byte of the netascii encoding: LF ↦ CR LF, CR ↦ CR NUL,
everything else passes through. -/
def netascii_encode_byte (b : Nat) : Bytes :=
  if b = 10 then [13, 10] else if b = 13 then [13, 0] else [b]

/-- `Packet::encode_netascii`. -/
def encode_netascii : Bytes → Bytes
  | [] => []
  | b :: rest => netascii_encode_byte b ++ encode_netascii rest

/-- `Packet::encode`.  The Rust function returns `IoResult` but writes to
an in-memory buffer that cannot fail, so the embedding is total. -/
def encode (mode : Mode) (p : Packet) : Bytes :=
  write_be_u16 p.opcodeVal ++
    match p with
    | .readRequest filename m opts => filename ++ [0] ++ mode_bytes m ++ [0] ++ encode_options opts
    | .writeRequest filename m opts => filename ++ [0] ++ mode_bytes m ++ [0] ++ encode_options opts
    | .data blockId payload =>
      write_be_u16 blockId ++ (if mode = .netAscii then encode_netascii payload else payload)
    | .acknowledgment blockId => write_be_u16 blockId
    | .error err msg => write_be_u16 (errCode err) ++ msg ++ [0]
    | .optionAcknowledgment opts => encode_options opts

/-- `Packet::read_to`: read up to (and consuming) the first occurrence of
`byte`.  At end of buffer, accumulated bytes are returned as a tolerant
tail parse; with nothing accumulated the end-of-file error escapes. -/
def read_to (byte : Nat) : Bytes → Except IoError (Bytes × Bytes)
  | [] => .error eofError
  | b :: rest =>
    if b = byte then .ok ([], rest)
    else
      match read_to byte rest with
      | .ok (pre, post) => .ok (b :: pre, post)
      | .error _ => .ok ([b], [])

/-- UTF-8 validity of a byte sequence (the check done by
`str::from_utf8_owned`). -/
def validUtf8 : Bytes → Bool
  | [] => true
  | b :: rest =>
    if b < 128 then validUtf8 rest
    else if 194 ≤ b ∧ b ≤ 223 then
      match rest with
      | c1 :: rest1 => (128 ≤ c1 && c1 ≤ 191) && validUtf8 rest1
      | [] => false
    else if 224 ≤ b ∧ b ≤ 239 then
      match rest with
      | c1 :: c2 :: rest2 =>
        (if b = 224 then 160 ≤ c1 && c1 ≤ 191
         else if b = 237 then 128 ≤ c1 && c1 ≤ 159
         else 128 ≤ c1 && c1 ≤ 191) &&
        ((128 ≤ c2 && c2 ≤ 191) && validUtf8 rest2)
      | _ => false
    else if 240 ≤ b ∧ b ≤ 244 then
      match rest with
      | c1 :: c2 :: c3 :: rest3 =>
        (if b = 240 then 144 ≤ c1 && c1 ≤ 191
         else if b = 244 then 128 ≤ c1 && c1 ≤ 143
         else 128 ≤ c1 && c1 ≤ 191) &&
        ((128 ≤ c2 && c2 ≤ 191) && ((128 ≤ c3 && c3 ≤ 191) && validUtf8 rest3))
      | _ => false
    else false

/-- `Packet::read_str`: a NUL-terminated field decoded as UTF-8. -/
def read_str (l : Bytes) : Except IoError (Bytes × Bytes) :=
  match read_to 0 l with
  | .ok (bytes, rest) =>
    if validUtf8 bytes then .ok (bytes, rest)
    else .error (invalidInputError "Wrong string encoding")
  | .error e => .error e

/-- Consumption bound for `read_to`, used for termination of the
option-list loop. -/
theorem read_to_length {byte : Nat} : ∀ {l pre post : Bytes},
    read_to byte l = .ok (pre, post) → post.length < l.length := by
  intro l
  induction l with
  | nil => intro pre post h; simp [read_to] at h
  | cons b rest ih =>
    intro pre post h
    by_cases hb : b = byte
    · simp only [read_to, if_pos hb, Except.ok.injEq, Prod.mk.injEq] at h
      obtain ⟨-, h2⟩ := h
      subst h2
      simp
    · cases hr : read_to byte rest with
      | ok pr =>
        obtain ⟨p1, p2⟩ := pr
        simp only [read_to, if_neg hb, hr, Except.ok.injEq, Prod.mk.injEq] at h
        obtain ⟨-, h2⟩ := h
        subst h2
        have := ih hr
        simp only [List.length_cons]
        omega
      | error e =>
        simp only [read_to, if_neg hb, hr, Except.ok.injEq, Prod.mk.injEq] at h
        obtain ⟨-, h2⟩ := h
        subst h2
        simp

/-- Consumption bound for `read_str`. -/
theorem read_str_length {l pre post : Bytes}
    (h : read_str l = .ok (pre, post)) : post.length < l.length := by
  unfold read_str at h
  cases hr : read_to 0 l with
  | ok pr =>
    obtain ⟨p1, p2⟩ := pr
    rw [hr] at h
    dsimp only at h
    split at h
    · simp only [Except.ok.injEq, Prod.mk.injEq] at h
      obtain ⟨-, h2⟩ := h
      subst h2
      exact read_to_length hr
    · exact (Except.noConfusion h)
  | error e => rw [hr] at h; exact (Except.noConfusion h)

/-- `Packet::decode_options`: read key/value pairs until either read
fails; keys are lowercased; failures end the loop silently.  `opts` is
the accumulating map (empty at the top-level call). -/
def decode_options (l : Bytes) (opts : Options) : Options :=
  match h1 : read_str l with
  | .error _ => opts
  | .ok (key, rest1) =>
    match h2 : read_str rest1 with
    | .error _ => opts
    | .ok (val, rest2) => decode_options rest2 (Options.insert opts (key.map lowerByte) val)
termination_by l.length
decreasing_by
  have a1 := read_str_length h1
  have a2 := read_str_length h2
  omega

/-- `Packet::decode_netascii`. -/
def decode_netascii : Bytes → Except IoError Bytes
  | [] => .ok []
  | b :: rest =>
    if b = 13 then
      match rest with
      | [] => .error eofError
      | c :: rest2 =>
        if c = 10 then (decode_netascii rest2).map (fun d => 10 :: d)
        else if c = 0 then (decode_netascii rest2).map (fun d => 13 :: d)
        else .error (invalidInputError "Invalid netascii encoding")
    else (decode_netascii rest).map (fun d => b :: d)

/-- `Packet::decode_request`. -/
def decode_request (buf : Bytes) (f : Bytes → Mode → Options → Packet) :
    Except IoError Packet :=
  match read_str buf with
  | .error e => .error e
  | .ok (filename, rest) =>
    match read_str rest with
    | .error e => .error e
    | .ok (mode_name, rest2) =>
      let opts := decode_options rest2 []
      match modeFromBytes mode_name with
      | some mode => .ok (f filename mode opts)
      | none => .error (invalidInputError "Mode not recognized")

/-- `Packet::decode`. -/
def decode (mode : Mode) (p : Bytes) : Except IoError Packet :=
  match read_be_u16 p with
  | .error e => .error e
  | .ok (opcode, buf) =>
    if opcode = 1 then decode_request buf Packet.readRequest
    else if opcode = 2 then decode_request buf Packet.writeRequest
    else if opcode = 3 then
      match read_be_u16 buf with
      | .error e => .error e
      | .ok (blockId, buf2) =>
        match (if mode = .netAscii then decode_netascii buf2 else .ok buf2) with
        | .error e => .error e
        | .ok d => .ok (.data blockId d)
    else if opcode = 4 then
      match read_be_u16 buf with
      | .error e => .error e
      | .ok (blockId, _) => .ok (.acknowledgment blockId)
    else if opcode = 5 then
      match read_be_u16 buf with
      | .error e => .error e
      | .ok (code, buf2) =>
        match read_str buf2 with
        | .error e => .error e
        | .ok (msg, _) =>
          match errFromCode code with
          | some err => .ok (.error err msg)
          | none => .error (invalidInputError "Invalid error code")
    else if opcode = 6 then .ok (.optionAcknowledgment (decode_options buf []))
    else .error (invalidInputError "Wrong packet type")

/-- Decimal digits (ASCII) of a natural number, the `to_str` of the
numeric option values. -/
def natDigitsAux : Nat → Nat → Bytes
  | 0, _ => []
  | fuel + 1, n => if n < 10 then [48 + n] else natDigitsAux fuel (n / 10) ++ [48 + n % 10]

/-- Decimal string of a natural number. -/
def natToBytes (n : Nat) : Bytes := natDigitsAux (n + 1) n

/-- `from_str::<uint>` / `from_str::<u64>`: decimal digits only, at
least one digit, no sign. -/
def parseNatAux : Bytes → Nat → Option Nat
  | [], acc => some acc
  | b :: rest, acc =>
    if 48 ≤ b ∧ b ≤ 57 then parseNatAux rest (acc * 10 + (b - 48)) else none

/-- Parse a decimal byte string into a natural number. -/
def parseNat : Bytes → Option Nat
  | [] => none
  | l => parseNatAux l 0

/-- `from_str::<RolloverMethod>`: "0" or "1" only. -/
def parseRollover (s : Bytes) : Option RolloverMethod :=
  if s = strBytes "0" then some .zero
  else if s = strBytes "1" then some .one
  else none

/-- `common.rs`: the session-level `TransferOptions`. -/
structure TransferOptions where
  mode : Mode
  block_size : Nat
  transfer_size : Option Nat
  receive_timeout : Nat
  resend_timeout : Nat
  rollover : Option RolloverMethod
deriving DecidableEq, Repr

/-- `Default for TransferOptions` in `common.rs`. -/
def TransferOptions.default : TransferOptions :=
  { mode := .octet
    block_size := 512
    transfer_size := none
    receive_timeout := 5000
    resend_timeout := 1000
    rollover := none }

/-- `find_as` in `common.rs`, at type `uint`/`u64`. -/
def find_as_nat (h : Options) (key : Bytes) : Option Nat :=
  (Options.find h key).bind parseNat

/-- `find_as` in `common.rs`, at type `RolloverMethod`. -/
def find_as_rollover (h : Options) (key : Bytes) : Option RolloverMethod :=
  (Options.find h key).bind parseRollover

/-- `TransferOptions::to_options`: emit `blksize`, `timeout`, `tsize`,
`rollover` when the respective field differs from the default. -/
def TransferOptions.to_options (o : TransferOptions) : Options :=
  let d := TransferOptions.default
  let h : Options := []
  let h := if o.block_size ≠ d.block_size
           then h.insert (strBytes "blksize") (natToBytes o.block_size) else h
  let h := if o.resend_timeout ≠ d.resend_timeout
           then h.insert (strBytes "timeout") (natToBytes o.resend_timeout) else h
  let h := if o.transfer_size ≠ d.transfer_size
           then h.insert (strBytes "tsize") (natToBytes (o.transfer_size.getD 0)) else h
  let h := if o.rollover ≠ d.rollover
           then h.insert (strBytes "rollover") (rolloverBytes (o.rollover.getD .zero)) else h
  h

/-- `TransferOptions::from_map`: start from the defaults and apply each
recognized key present in the map; `blksize`/`timeout` keep their
defaults when the value fails to parse, `tsize`/`rollover` become
absent. -/
def TransferOptions.from_map (opts : Options) : TransferOptions :=
  let d := TransferOptions.default
  { mode := d.mode
    block_size := (find_as_nat opts (strBytes "blksize")).getD d.block_size
    transfer_size :=
      if (Options.find opts (strBytes "tsize")).isSome
      then find_as_nat opts (strBytes "tsize") else d.transfer_size
    receive_timeout := d.receive_timeout
    resend_timeout := (find_as_nat opts (strBytes "timeout")).getD d.resend_timeout
    rollover :=
      if (Options.find opts (strBytes "rollover")).isSome
      then find_as_rollover opts (strBytes "rollover") else d.rollover }

/-- A socket address: an IP and a port. -/
structure SocketAddr where
  ip : Nat
  port : Nat
deriving DecidableEq, Repr

/-- `common.rs`: the per-transfer `LoopData`.  The outbound channel
(`writer_chan`) is embedded as the accumulating `sent` trace; the
inbound channel becomes the event input of the step function. -/
structure LoopData (T D : Type) where
  remote_addr : SocketAddr
  opts : TransferOptions
  current_id : Nat
  resend : Bool
  path_handle : T
  data : D
  sent : List (SocketAddr × Packet)
deriving DecidableEq, Repr

/-- `writer_chan.send`. -/
def send {T D : Type} (d : LoopData T D) (addr : SocketAddr) (p : Packet) : LoopData T D :=
  { d with sent := d.sent ++ [(addr, p)] }

/-- `common.rs`: `LoopControl`. -/
inductive LoopControl (α : Type)
  | normal
  | brk
  | cont
  | ret (v : α)
deriving DecidableEq, Repr

/-- The loop-local state of `receive_loop`: the `LoopData`, the `first`
flag and the `reset_timeout` flag. -/
structure EngineState (T D : Type) where
  d : LoopData T D
  first : Bool
  reset_timeout : Bool
deriving DecidableEq, Repr

/-- The three event sources of the select in `receive_loop`. -/
inductive Event
  | timeout
  | resendTimeout
  | packet (addr : SocketAddr) (pkt : Packet)
deriving DecidableEq, Repr

/-- Result of one loop iteration: either the loop terminated with a
result, or it continues in a new state. -/
inductive StepResult (T D : Type)
  | done (r : Except IoError Unit) (s : EngineState T D)
  | next (s : EngineState T D)
deriving DecidableEq, Repr

/-- The state carried by a step result. -/
def StepResult.state {T D : Type} : StepResult T D → EngineState T D
  | .done _ s => s
  | .next s => s

/-- The `control!` macro of `common.rs`, applied to the result of the
`handle_packet` callback: `Normal`/`Continue` go on to the next
iteration, `Break` leaves the loop successfully, `Return v` returns `v`. -/
def dispatch_result {T D : Type} (s1 : EngineState T D)
    (res : LoopData T D × Bool × LoopControl (Except IoError Unit)) : StepResult T D :=
  match res with
  | (d2, r2, .normal) => .next { s1 with d := d2, reset_timeout := r2 }
  | (d2, r2, .brk) => .done (.ok ()) { s1 with d := d2, reset_timeout := r2 }
  | (d2, r2, .cont) => .next { s1 with d := d2, reset_timeout := r2 }
  | (d2, r2, .ret r) => .done r { s1 with d := d2, reset_timeout := r2 }

/-- `receive_loop` lines 197-205: error packets abort the transfer, a
non-OACK first packet resets the options to the defaults, then the
role's `handle_packet` callback runs. -/
def process_packet {T D : Type}
    (hp : LoopData T D → Bool → Packet → Bool → LoopData T D × Bool × LoopControl (Except IoError Unit))
    (s : EngineState T D) (first_packet : Bool) (pkt : Packet) : StepResult T D :=
  match pkt with
  | .error _ msg =>
    .done (.error { kind := .otherIoError, desc := "tftp protocol error", detail := some msg }) s
  | _ =>
    let s1 := if first_packet && !pkt.isOptionAck
              then { s with d := { s.d with opts := TransferOptions.default } } else s
    dispatch_result s1 (hp s1.d first_packet pkt s1.reset_timeout)

/-- `receive_loop` lines 182-205: the TID discipline around an inbound
packet, followed by packet processing. -/
def receive_packet_step {T D : Type}
    (hp : LoopData T D → Bool → Packet → Bool → LoopData T D × Bool × LoopControl (Except IoError Unit))
    (s : EngineState T D) (addr : SocketAddr) (pkt : Packet) : StepResult T D :=
  if addr ≠ s.d.remote_addr ∧ s.first = false then
    .next { s with d := send s.d addr (.error .unknownTransferId (strBytes "Unknown TID")) }
  else if s.first then
    if addr.ip = s.d.remote_addr.ip then
      process_packet hp { s with first := false, d := { s.d with remote_addr := addr } } true pkt
    else .next s
  else process_packet hp s false pkt

/-- One iteration of `receive_loop`, given the selected event: run the
role's `loop_start`, re-arm the receive timer when the reset flag is
set, then react to the event.  The second component records whether the
receive timer was re-armed in this iteration. -/
def loop_iter {T D : Type}
    (ls : LoopData T D → LoopData T D × LoopControl (Except IoError Unit))
    (hp : LoopData T D → Bool → Packet → Bool → LoopData T D × Bool × LoopControl (Except IoError Unit))
    (s : EngineState T D) (ev : Event) : StepResult T D × Bool :=
  match ls s.d with
  | (d1, .brk) => (.done (.ok ()) { s with d := d1 }, false)
  | (d1, .ret r) => (.done r { s with d := d1 }, false)
  | (d1, .cont) => (.next { s with d := d1 }, false)
  | (d1, .normal) =>
    let s1 : EngineState T D := { s with d := d1 }
    let rearmed := s1.reset_timeout
    let s2 := { s1 with reset_timeout := false }
    match ev with
    | .timeout => (.done (.error connTimeoutError) s2, rearmed)
    | .resendTimeout => (.next { s2 with d := { s2.d with resend := true } }, rearmed)
    | .packet addr pkt => (receive_packet_step hp s2 addr pkt, rearmed)

/-- Result of running the loop on a list of events. -/
inductive RunOutcome (T D : Type)
  | finished (r : Except IoError Unit) (s : EngineState T D)
  | running (s : EngineState T D)
deriving DecidableEq, Repr

/-- Run the loop over a list of selected events. -/
def run {T D : Type}
    (step : EngineState T D → Event → StepResult T D × Bool) :
    EngineState T D → List Event → RunOutcome T D
  | s, [] => .running s
  | s, ev :: evs =>
    match step s ev with
    | (.done r s1, _) => .finished r s1
    | (.next s1, _) => run step s1 evs

/-- The GET `loop_start` callback (`|_| Normal` in `get_internal`). -/
def get_loop_start {W : Type} (d : LoopData W Unit) :
    LoopData W Unit × LoopControl (Except IoError Unit) :=
  (d, .normal)

/-- The GET `handle_packet` callback (`client.rs` lines 40-65),
parameterized by the abstract sink's `write` operation. -/
def get_handle_packet {W : Type} (write : W → Bytes → Except IoError W)
    (d : LoopData W Unit) (first_packet : Bool) (packet : Packet) (reset : Bool) :
    LoopData W Unit × Bool × LoopControl (Except IoError Unit) :=
  match packet with
  | .optionAcknowledgment topts =>
    if first_packet then
      let d1 := { d with opts := TransferOptions.from_map topts }
      let d2 := send d1 d1.remote_addr (.acknowledgment 0)
      (d2, reset, .normal)
    else (d, reset, .normal)
  | .data blockId dat =>
    if blockId = d.current_id then
      let newId := if d.current_id = 65535 ∧ d.opts.rollover = some RolloverMethod.one
                   then (d.opts.rollover.map rolloverVal).getD 0
                   else (d.current_id + 1) % 65536
      let d1 := { d with current_id := newId }
      match write d1.path_handle dat with
      | .error e => (d1, true, .ret (.error e))
      | .ok w =>
        let d2 := send { d1 with path_handle := w } d1.remote_addr (.acknowledgment blockId)
        if dat.length < d2.opts.block_size then (d2, true, .brk) else (d2, true, .normal)
    else (d, reset, .normal)
  | _ => (d, reset, .normal)

/-- `read_block` in `client.rs`, parameterized by the abstract source's
`read` operation: an end-of-file error becomes an empty block. -/
def read_block {R : Type} (read : R → Nat → Except IoError Bytes × R)
    (r : R) (block_size : Nat) : Except IoError Bytes × R :=
  match read r block_size with
  | (.ok dat, r2) => (.ok dat, r2)
  | (.error err, r2) => if err.kind = .endOfFile then (.ok [], r2) else (.error err, r2)

/-- The buffering part of the PUT `loop_start`: ensure the outbound
block is buffered, reading from the source when absent. -/
def put_fill_data {R : Type} (read : R → Nat → Except IoError Bytes × R)
    (d : LoopData R (Option Bytes)) : Except IoError (LoopData R (Option Bytes)) :=
  match d.data with
  | some _ => .ok d
  | none =>
    match read_block read d.path_handle d.opts.block_size with
    | (.ok dat, r2) => .ok { d with data := some dat, path_handle := r2 }
    | (.error err, _) => .error err

/-- The PUT `loop_start` callback (`client.rs` lines 116-128): when
`resend` is set, buffer the current block if needed, transmit it, and
clear `resend`. -/
def put_loop_start {R : Type} (read : R → Nat → Except IoError Bytes × R)
    (d : LoopData R (Option Bytes)) :
    LoopData R (Option Bytes) × LoopControl (Except IoError Unit) :=
  if d.resend then
    match put_fill_data read d with
    | .error err => (d, .ret (.error err))
    | .ok d1 =>
      let d2 := send d1 d1.remote_addr (.data d1.current_id (d1.data.getD []))
      ({ d2 with resend := false }, .normal)
  else (d, .normal)

/-- The PUT `handle_packet` callback (`client.rs` lines 129-152). -/
def put_handle_packet {R : Type}
    (d : LoopData R (Option Bytes)) (first_packet : Bool) (packet : Packet) (reset : Bool) :
    LoopData R (Option Bytes) × Bool × LoopControl (Except IoError Unit) :=
  match packet with
  | .optionAcknowledgment topts =>
    if first_packet then
      ({ d with opts := TransferOptions.from_map topts,
                current_id := (d.current_id + 1) % 65536,
                resend := true }, reset, .normal)
    else (d, reset, .normal)
  | .acknowledgment blockId =>
    if blockId = d.current_id then
      if d.data.isSome ∧ (d.data.getD []).length < d.opts.block_size then (d, reset, .brk)
      else
        let newId := if d.current_id = 65535 ∧ d.opts.rollover = some RolloverMethod.one
                     then (d.opts.rollover.map rolloverVal).getD 0
                     else (d.current_id + 1) % 65536
        ({ d with current_id := newId, resend := true, data := none }, true, .normal)
    else (d, reset, .normal)
  | _ => (d, reset, .normal)

/-- A concrete in-memory source (`BufReader` over a byte slice): reading
returns up to `n` bytes, or the end-of-file error when exhausted. -/
def bufRead (l : List Nat) (n : Nat) : Except IoError Bytes × List Nat :=
  if l.isEmpty then (.error eofError, l) else (.ok (l.take n), l.drop n)

/-- A concrete in-memory sink (`MemWriter`): writes always succeed and
append. -/
def memWrite (w : Bytes) (dat : Bytes) : Except IoError Bytes := .ok (w ++ dat)

/-- `put_internal`: seed the loop state (counter 0, `resend` false, the
initial `WriteRequest` already sent by the `init` callback) and run the
engine over the given events, with a concrete in-memory source. -/
def put_internal (remote : SocketAddr) (path : Bytes) (opts : TransferOptions)
    (src : List Nat) (events : List Event) : RunOutcome (List Nat) (Option Bytes) :=
  run (loop_iter (put_loop_start bufRead) put_handle_packet)
    { d := { remote_addr := remote
             opts := opts
             current_id := 0
             resend := false
             path_handle := src
             data := none
             sent := [(remote, .writeRequest path opts.mode opts.to_options)] }
      first := true
      reset_timeout := false }
    events

/-- `get_internal`: seed the loop state (counter 1, `resend` true, the
initial `ReadRequest` already sent by the `init` callback) and run the
engine over the given events, with a concrete in-memory sink. -/
def get_internal (remote : SocketAddr) (path : Bytes) (opts : TransferOptions)
    (events : List Event) : RunOutcome Bytes Unit :=
  run (loop_iter get_loop_start (get_handle_packet memWrite))
    { d := { remote_addr := remote
             opts := opts
             current_id := 1
             resend := true
             path_handle := []
             data := ()
             sent := [(remote, .readRequest path opts.mode opts.to_options)] }
      first := true
      reset_timeout := false }
    events

/-- `util.rs`: `random_ephemeral_port`, as a function of the uniformly
random `u16` source value. -/
def random_ephemeral_port (r : Nat) : Nat :=
  r % (65535 - 49152) + 49152

/-! ## Claim C7: the netascii DATA codec -/

/-- Claim C7: on encode, LF (0x0A) becomes CR LF, CR (0x0D) becomes
CR NUL, and every other byte passes through; on decode, CR LF maps back
to LF and CR NUL back to CR, any other byte after a CR is an
invalid-input error, a byte other than CR passes through, and the empty
buffer (no partial CR outstanding) terminates cleanly. -/
theorem c7_netascii_codec :
    (∀ d : Bytes, encode_netascii (10 :: d) = 13 :: 10 :: encode_netascii d) ∧
    (∀ d : Bytes, encode_netascii (13 :: d) = 13 :: 0 :: encode_netascii d) ∧
    (∀ (b : Nat) (d : Bytes), b ≠ 10 → b ≠ 13 →
      encode_netascii (b :: d) = b :: encode_netascii d) ∧
    (∀ d : Bytes, decode_netascii (13 :: 10 :: d) = (decode_netascii d).map (fun t => 10 :: t)) ∧
    (∀ d : Bytes, decode_netascii (13 :: 0 :: d) = (decode_netascii d).map (fun t => 13 :: t)) ∧
    (∀ (c : Nat) (d : Bytes), c ≠ 10 → c ≠ 0 →
      decode_netascii (13 :: c :: d) = .error (invalidInputError "Invalid netascii encoding")) ∧
    (∀ (b : Nat) (d : Bytes), b ≠ 13 →
      decode_netascii (b :: d) = (decode_netascii d).map (fun t => b :: t)) ∧
    decode_netascii [] = .ok [] := by
  refine ⟨?_, ?_, ?_, ?_, ?_, ?_, ?_, rfl⟩
  · intro d; simp [encode_netascii, netascii_encode_byte]
  · intro d; simp [encode_netascii, netascii_encode_byte]
  · intro b d hb1 hb2; simp [encode_netascii, netascii_encode_byte, hb1, hb2]
  · intro d; simp [decode_netascii]
  · intro d; simp [decode_netascii]
  · intro c d hc1 hc2; rw [decode_netascii.eq_def]; simp [hc1, hc2]
  · intro b d hb; rw [decode_netascii.eq_def]; simp [hb]

/-- Witness for C7 at concrete bytes. -/
theorem c7_netascii_codec_witness :
    encode_netascii [65] = 65 :: encode_netascii [] ∧
    decode_netascii [13, 65] = .error (invalidInputError "Invalid netascii encoding") ∧
    decode_netascii [65] = (decode_netascii []).map (fun t => 65 :: t) :=
  ⟨c7_netascii_codec.2.2.1 65 [] (by decide) (by decide),
   c7_netascii_codec.2.2.2.2.2.1 65 [] (by decide) (by decide),
   c7_netascii_codec.2.2.2.2.2.2.1 65 [] (by decide)⟩

/-! ## Claim C8: `to_options` emits only non-default fields -/

/-- Lookup after insert in the association-list map. -/
theorem find_insert : ∀ (h : Options) (k v k2 : Bytes),
    Options.find (Options.insert h k v) k2 = if k2 = k then some v else Options.find h k2 := by
  intro h
  induction h with
  | nil =>
    intro k v k2
    simp [Options.insert, Options.find]
  | cons kv rest ih =>
    intro k v k2
    obtain ⟨k0, v0⟩ := kv
    by_cases e1 : k = k0
    · subst e1
      simp only [Options.insert, if_pos rfl]
      by_cases e : k2 = k <;> simp [Options.find, e]
    · by_cases e2 : bytesLt k k0
      · simp only [Options.insert, if_neg e1, if_pos e2]
        by_cases e : k2 = k <;> simp [Options.find, e]
      · simp only [Options.insert, if_neg e1, if_neg e2, Options.find, ih]
        by_cases ea : k2 = k0 <;> by_cases eb : k2 = k <;> simp_all

/-- The four recognized option keys are pairwise distinct byte strings. -/
theorem option_keys_distinct :
    strBytes "blksize" ≠ strBytes "timeout" ∧ strBytes "blksize" ≠ strBytes "tsize" ∧
    strBytes "blksize" ≠ strBytes "rollover" ∧ strBytes "timeout" ≠ strBytes "tsize" ∧
    strBytes "timeout" ≠ strBytes "rollover" ∧ strBytes "tsize" ≠ strBytes "rollover" ∧
    strBytes "timeout" ≠ strBytes "blksize" ∧ strBytes "tsize" ≠ strBytes "blksize" ∧
    strBytes "rollover" ≠ strBytes "blksize" ∧ strBytes "tsize" ≠ strBytes "timeout" ∧
    strBytes "rollover" ≠ strBytes "timeout" ∧ strBytes "rollover" ≠ strBytes "tsize" := by
  decide

/-- What `to_options` maps each key to, as a function of the fields. -/
theorem to_options_find (o : TransferOptions) (k : Bytes) :
    Options.find o.to_options k =
      if k = strBytes "rollover" ∧ o.rollover ≠ none then
        some (rolloverBytes (o.rollover.getD .zero))
      else if k = strBytes "tsize" ∧ o.transfer_size ≠ none then
        some (natToBytes (o.transfer_size.getD 0))
      else if k = strBytes "timeout" ∧ o.resend_timeout ≠ 1000 then
        some (natToBytes o.resend_timeout)
      else if k = strBytes "blksize" ∧ o.block_size ≠ 512 then
        some (natToBytes o.block_size)
      else none := by
  obtain ⟨d1, d2, d3, d4, d5, d6, d7, d8, d9, d10, d11, d12⟩ := option_keys_distinct
  simp only [TransferOptions.to_options, TransferOptions.default]
  by_cases h1 : o.block_size ≠ 512 <;> by_cases h2 : o.resend_timeout ≠ 1000 <;>
    by_cases h3 : o.transfer_size ≠ none <;> by_cases h4 : o.rollover ≠ none <;>
    simp [find_insert, Options.find, h1, h2, h3, h4] <;>
    split_ifs <;> simp_all

/-- Claim C8: `to_options` contains `blksize`/`timeout`/`tsize`/`rollover`
exactly when the corresponding field differs from its default, contains
no other key, and maps the default options to the empty map. -/
theorem c8_to_options (o : TransferOptions) :
    ((Options.find o.to_options (strBytes "blksize")).isSome ↔ o.block_size ≠ 512) ∧
    ((Options.find o.to_options (strBytes "timeout")).isSome ↔ o.resend_timeout ≠ 1000) ∧
    ((Options.find o.to_options (strBytes "tsize")).isSome ↔ o.transfer_size ≠ none) ∧
    ((Options.find o.to_options (strBytes "rollover")).isSome ↔ o.rollover ≠ none) ∧
    (∀ k : Bytes, Options.find o.to_options k ≠ none →
      k = strBytes "blksize" ∨ k = strBytes "timeout" ∨
      k = strBytes "tsize" ∨ k = strBytes "rollover") ∧
    TransferOptions.default.to_options = [] := by
  obtain ⟨d1, d2, d3, d4, d5, d6, d7, d8, d9, d10, d11, d12⟩ := option_keys_distinct
  refine ⟨?_, ?_, ?_, ?_, ?_, by decide⟩
  · rw [to_options_find]
    split_ifs with ha hb hc hd <;> simp_all
  · rw [to_options_find]
    split_ifs with ha hb hc hd <;> simp_all
  · rw [to_options_find]
    split_ifs with ha hb hc hd <;> simp_all
  · rw [to_options_find]
    split_ifs with ha hb hc hd <;> simp_all
  · intro k hk
    rw [to_options_find] at hk
    split_ifs at hk with ha hb hc hd
    · exact Or.inr (Or.inr (Or.inr ha.1))
    · exact Or.inr (Or.inr (Or.inl hb.1))
    · exact Or.inr (Or.inl hc.1)
    · exact Or.inl hd.1
    · exact absurd rfl hk

/-- Witness for C8's only-these-keys implication at a concrete map. -/
theorem c8_to_options_witness :
    (Options.find (TransferOptions.to_options
        { TransferOptions.default with block_size := 1024 }) (strBytes "blksize") ≠ none) ∧
    (strBytes "blksize" = strBytes "blksize" ∨ strBytes "blksize" = strBytes "timeout" ∨
      strBytes "blksize" = strBytes "tsize" ∨ strBytes "blksize" = strBytes "rollover") := by
  refine ⟨by decide, ?_⟩
  exact (c8_to_options { TransferOptions.default with block_size := 1024 }).2.2.2.2.1
    (strBytes "blksize") (by decide)

/-! ## Claim C9: the ephemeral port range and distribution -/

/-- Preimage of port 49152 under the port map, over the whole u16 source. -/
theorem port_preimage_49152 :
    (Finset.range 65536).filter (fun r => random_ephemeral_port r = 49152) =
      {0, 16383, 32766, 49149, 65532} := by
  ext a
  simp only [Finset.mem_filter, Finset.mem_range, Finset.mem_insert, Finset.mem_singleton,
    random_ephemeral_port]
  omega

/-- Preimage of port 49156 under the port map. -/
theorem port_preimage_49156 :
    (Finset.range 65536).filter (fun r => random_ephemeral_port r = 49156) =
      {4, 16387, 32770, 49153} := by
  ext a
  simp only [Finset.mem_filter, Finset.mem_range, Finset.mem_insert, Finset.mem_singleton,
    random_ephemeral_port]
  omega

/-- Preimage of port 65535 under the port map: empty. -/
theorem port_preimage_65535 :
    (Finset.range 65536).filter (fun r => random_ephemeral_port r = 65535) = ∅ := by
  ext a
  simp only [Finset.mem_filter, Finset.mem_range, Finset.not_mem_empty, iff_false,
    random_ephemeral_port, not_and]
  intro
  omega

/-- Counterexample to claim C9 as stated: if port selection were uniform
over [49152, 65535], every port in that range would have the same number
of u16 preimages (65536 / 16384 = 4); in fact 65535 is never produced
while 49152 is. -/
theorem c9_uniform_counterexample :
    ((Finset.range 65536).filter (fun r => random_ephemeral_port r = 65535)).card = 0 ∧
    ((Finset.range 65536).filter (fun r => random_ephemeral_port r = 49152)).card = 5 := by
  constructor
  · rw [port_preimage_65535]; rfl
  · rw [port_preimage_49152]; decide

/-- Claim C9, amended: the port always lies in [49152, 65534]; every
port in that range is attainable; selection is not uniform (ports
49152-49155 have five u16 preimages, ports 49156-65534 have four, and
65535 has none: representative counts below). -/
theorem c9_port_range_amended :
    (∀ r : Nat, 49152 ≤ random_ephemeral_port r ∧ random_ephemeral_port r ≤ 65534) ∧
    (∀ p : Nat, 49152 ≤ p → p ≤ 65534 → ∃ r : Nat, r < 65536 ∧ random_ephemeral_port r = p) ∧
    ((Finset.range 65536).filter (fun r => random_ephemeral_port r = 49152)).card = 5 ∧
    ((Finset.range 65536).filter (fun r => random_ephemeral_port r = 49156)).card = 4 ∧
    ((Finset.range 65536).filter (fun r => random_ephemeral_port r = 65535)).card = 0 := by
  refine ⟨?_, ?_, ?_, ?_, ?_⟩
  · intro r
    simp only [random_ephemeral_port]
    omega
  · intro p h1 h2
    refine ⟨p - 49152, by omega, ?_⟩
    simp only [random_ephemeral_port]
    omega
  · rw [port_preimage_49152]; decide
  · rw [port_preimage_49156]; decide
  · rw [port_preimage_65535]; rfl

/-- Witness for C9's attainability implication at a concrete port. -/
theorem c9_port_range_amended_witness :
    ∃ r : Nat, r < 65536 ∧ random_ephemeral_port r = 50000 :=
  c9_port_range_amended.2.1 50000 (by decide) (by decide)

/-! ## Engine helper lemmas -/

/-- The GET handler never touches the options on a non-OACK packet. -/
theorem get_handle_packet_opts {W : Type} (write : W → Bytes → Except IoError W)
    (d : LoopData W Unit) (fp r : Bool) (pkt : Packet) (h : pkt.isOptionAck = false) :
    ((get_handle_packet write d fp pkt r).1).opts = d.opts := by
  cases pkt
  case optionAcknowledgment topts => simp [Packet.isOptionAck] at h
  case data bid payload =>
    by_cases hb : bid = d.current_id
    · rcases hw : write d.path_handle payload with e | w <;>
        simp [get_handle_packet, hb, hw, send, apply_ite]
    · simp [get_handle_packet, hb]
  all_goals rfl

/-- The PUT handler never touches the options on a non-OACK packet. -/
theorem put_handle_packet_opts {R : Type}
    (d : LoopData R (Option Bytes)) (fp r : Bool) (pkt : Packet) (h : pkt.isOptionAck = false) :
    ((put_handle_packet d fp pkt r).1).opts = d.opts := by
  cases pkt
  case optionAcknowledgment topts => simp [Packet.isOptionAck] at h
  case acknowledgment bid =>
    by_cases hb : bid = d.current_id <;>
      simp [put_handle_packet, hb, apply_ite]
  all_goals rfl

/-- The state produced by `dispatch_result` carries the handler's
returned `LoopData`, whatever the control value. -/
theorem dispatch_result_opts {T D : Type} (s1 : EngineState T D)
    (res : LoopData T D × Bool × LoopControl (Except IoError Unit)) :
    ((dispatch_result s1 res).state).d.opts = res.1.opts := by
  rcases res with ⟨d2, r2, c⟩
  cases c <;> rfl

/-- After `process_packet` on a first, non-error, non-OACK packet, the
options of the resulting state are the defaults, provided the handler
preserves options on non-OACK packets. -/
theorem process_packet_first_opts {T D : Type}
    (hp : LoopData T D → Bool → Packet → Bool → LoopData T D × Bool × LoopControl (Except IoError Unit))
    (hpres : ∀ d fp pkt r, pkt.isOptionAck = false → ((hp d fp pkt r).1).opts = d.opts)
    (s : EngineState T D) (pkt : Packet)
    (hoack : pkt.isOptionAck = false) (herr : pkt.isError = false) :
    ((process_packet hp s true pkt).state).d.opts = TransferOptions.default := by
  cases pkt
  case error e msg => simp [Packet.isError] at herr
  case optionAcknowledgment topts => simp [Packet.isOptionAck] at hoack
  all_goals refine (dispatch_result_opts _ _).trans ?_
  all_goals exact hpres _ true _ _ rfl

/-- Claim C3: TID discipline of the receive loop.  A non-first packet
from a different address provokes exactly one
`Error(UnknownTransferId, "Unknown TID")` to that address and leaves all
loop state unchanged; the first packet is accepted exactly when its
source IP matches, re-binding the remote address to the full source
address and clearing the `first` flag; a first packet with the wrong IP
is silently dropped. -/
theorem c3_tid_discipline {T D : Type}
    (hp : LoopData T D → Bool → Packet → Bool → LoopData T D × Bool × LoopControl (Except IoError Unit))
    (s : EngineState T D) (addr : SocketAddr) (pkt : Packet) :
    (s.first = false → addr ≠ s.d.remote_addr →
      receive_packet_step hp s addr pkt =
        .next { s with d := { s.d with
          sent := s.d.sent ++ [(addr, .error .unknownTransferId (strBytes "Unknown TID"))] } }) ∧
    (s.first = true → addr.ip = s.d.remote_addr.ip →
      receive_packet_step hp s addr pkt =
        process_packet hp { s with first := false, d := { s.d with remote_addr := addr } }
          true pkt) ∧
    (s.first = true → addr.ip ≠ s.d.remote_addr.ip →
      receive_packet_step hp s addr pkt = .next s) := by
  refine ⟨?_, ?_, ?_⟩
  · intro hf ha
    simp [receive_packet_step, hf, ha, send]
  · intro hf ha
    simp [receive_packet_step, hf, ha]
  · intro hf ha
    simp [receive_packet_step, hf, ha]

/-- Concrete addresses and states used by the witnesses. -/
def exAddr : SocketAddr := { ip := 1, port := 69 }

/-- A second address with a different IP. -/
def exAddr2 : SocketAddr := { ip := 2, port := 70 }

/-- A concrete GET loop state bound to `exAddr`. -/
def exGetData : LoopData Bytes Unit :=
  { remote_addr := exAddr, opts := TransferOptions.default, current_id := 1,
    resend := false, path_handle := [], data := (), sent := [] }

/-- A concrete engine state past the first packet. -/
def exGetState : EngineState Bytes Unit :=
  { d := exGetData, first := false, reset_timeout := false }

/-- A concrete engine state awaiting the first packet. -/
def exGetStateFirst : EngineState Bytes Unit :=
  { d := exGetData, first := true, reset_timeout := false }

/-- Witness for C3 at concrete states. -/
theorem c3_tid_discipline_witness :
    (receive_packet_step (get_handle_packet memWrite) exGetState exAddr2 (.acknowledgment 0) =
      .next { exGetState with d := { exGetState.d with
        sent := exGetState.d.sent ++
          [(exAddr2, .error .unknownTransferId (strBytes "Unknown TID"))] } }) ∧
    (receive_packet_step (get_handle_packet memWrite) exGetStateFirst exAddr (.acknowledgment 0) =
      process_packet (get_handle_packet memWrite)
        { exGetStateFirst with
            first := false
            d := { exGetStateFirst.d with remote_addr := exAddr } } true (.acknowledgment 0)) ∧
    (receive_packet_step (get_handle_packet memWrite) exGetStateFirst exAddr2 (.acknowledgment 0) =
      .next exGetStateFirst) :=
  ⟨(c3_tid_discipline (get_handle_packet memWrite) exGetState exAddr2 (.acknowledgment 0)).1
      rfl (by decide),
   (c3_tid_discipline (get_handle_packet memWrite) exGetStateFirst exAddr (.acknowledgment 0)).2.1
      rfl (by decide),
   (c3_tid_discipline (get_handle_packet memWrite) exGetStateFirst exAddr2 (.acknowledgment 0)).2.2
      rfl (by decide)⟩

/-- Claim C4: options take effect only as the first received packet.
The defaults are octet / 512 / no tsize / 5000 / 1000 / no rollover; a
first accepted packet that is not an OACK (and not an Error, which
aborts the session) resets the session options to those defaults for
both roles; a first accepted OACK installs `from_map` of its map; an
OACK arriving later changes nothing at all. -/
theorem c4_first_packet_options :
    (TransferOptions.default =
      { mode := .octet, block_size := 512, transfer_size := none,
        receive_timeout := 5000, resend_timeout := 1000, rollover := none }) ∧
    (∀ (W : Type) (write : W → Bytes → Except IoError W) (s : EngineState W Unit)
        (addr : SocketAddr) (pkt : Packet),
      s.first = true → addr.ip = s.d.remote_addr.ip →
      pkt.isOptionAck = false → pkt.isError = false →
      ((receive_packet_step (get_handle_packet write) s addr pkt).state).d.opts =
        TransferOptions.default) ∧
    (∀ (R : Type) (s : EngineState R (Option Bytes)) (addr : SocketAddr) (pkt : Packet),
      s.first = true → addr.ip = s.d.remote_addr.ip →
      pkt.isOptionAck = false → pkt.isError = false →
      ((receive_packet_step put_handle_packet s addr pkt).state).d.opts =
        TransferOptions.default) ∧
    (∀ (W : Type) (write : W → Bytes → Except IoError W) (s : EngineState W Unit)
        (addr : SocketAddr) (topts : Options),
      s.first = true → addr.ip = s.d.remote_addr.ip →
      ((receive_packet_step (get_handle_packet write) s addr
          (.optionAcknowledgment topts)).state).d.opts = TransferOptions.from_map topts) ∧
    (∀ (R : Type) (s : EngineState R (Option Bytes)) (addr : SocketAddr) (topts : Options),
      s.first = true → addr.ip = s.d.remote_addr.ip →
      ((receive_packet_step put_handle_packet s addr
          (.optionAcknowledgment topts)).state).d.opts = TransferOptions.from_map topts) ∧
    (∀ (W : Type) (write : W → Bytes → Except IoError W) (s : EngineState W Unit)
        (addr : SocketAddr) (topts : Options),
      s.first = false → addr = s.d.remote_addr →
      receive_packet_step (get_handle_packet write) s addr (.optionAcknowledgment topts) =
        .next s) ∧
    (∀ (R : Type) (s : EngineState R (Option Bytes)) (addr : SocketAddr) (topts : Options),
      s.first = false → addr = s.d.remote_addr →
      receive_packet_step put_handle_packet s addr (.optionAcknowledgment topts) = .next s) := by
  refine ⟨rfl, ?_, ?_, ?_, ?_, ?_, ?_⟩
  · intro W write s addr pkt hf ha hoack herr
    rw [(c3_tid_discipline (get_handle_packet write) s addr pkt).2.1 hf ha]
    exact process_packet_first_opts _ (fun d fp p r hp => get_handle_packet_opts write d fp r p hp)
      _ pkt hoack herr
  · intro R s addr pkt hf ha hoack herr
    rw [(c3_tid_discipline put_handle_packet s addr pkt).2.1 hf ha]
    exact process_packet_first_opts _ (fun d fp p r hp => put_handle_packet_opts d fp r p hp)
      _ pkt hoack herr
  · intro W write s addr topts hf ha
    rw [(c3_tid_discipline (get_handle_packet write) s addr _).2.1 hf ha]
    simp [process_packet, dispatch_result, get_handle_packet, Packet.isOptionAck,
      StepResult.state, send]
  · intro R s addr topts hf ha
    rw [(c3_tid_discipline put_handle_packet s addr _).2.1 hf ha]
    simp [process_packet, dispatch_result, put_handle_packet, Packet.isOptionAck,
      StepResult.state]
  · intro W write s addr topts hf ha
    subst ha
    simp only [receive_packet_step, hf, process_packet, dispatch_result, get_handle_packet,
      Packet.isOptionAck, ne_eq, not_true_eq_false, and_false, if_false, ite_false,
      Bool.false_eq_true, Bool.not_true, Bool.and_false, ite_eq_right_iff, and_true]
    simp [hf]
    rw [← hf]
  · intro R s addr topts hf ha
    subst ha
    simp only [receive_packet_step, hf, process_packet, dispatch_result, put_handle_packet,
      Packet.isOptionAck, ne_eq, not_true_eq_false, and_false, if_false, ite_false,
      Bool.false_eq_true, Bool.not_true, Bool.and_false, ite_eq_right_iff, and_true]
    simp [hf]
    rw [← hf]

/-- Witness for C4 at concrete states. -/
theorem c4_first_packet_options_witness :
    (((receive_packet_step (get_handle_packet memWrite) exGetStateFirst exAddr
        (.acknowledgment 0)).state).d.opts = TransferOptions.default) ∧
    (((receive_packet_step (get_handle_packet memWrite) exGetStateFirst exAddr
        (.optionAcknowledgment [(strBytes "blksize", strBytes "256")])).state).d.opts =
      TransferOptions.from_map [(strBytes "blksize", strBytes "256")]) ∧
    (receive_packet_step (get_handle_packet memWrite) exGetState exAddr
        (.optionAcknowledgment [(strBytes "blksize", strBytes "256")]) = .next exGetState) :=
  ⟨c4_first_packet_options.2.1 Bytes memWrite exGetStateFirst exAddr (.acknowledgment 0)
      rfl rfl rfl rfl,
   c4_first_packet_options.2.2.2.1 Bytes memWrite exGetStateFirst exAddr
      [(strBytes "blksize", strBytes "256")] rfl rfl,
   c4_first_packet_options.2.2.2.2.2.1 Bytes memWrite exGetState exAddr
      [(strBytes "blksize", strBytes "256")] rfl rfl⟩

/-! ## Claim C2: block-counter advance -/

/-- The GET handler's counter after an accepted DATA packet. -/
theorem get_handle_data_current_id {W : Type} (write : W → Bytes → Except IoError W)
    (d : LoopData W Unit) (fp r : Bool) (payload : Bytes) :
    ((get_handle_packet write d fp (.data d.current_id payload) r).1).current_id =
      if d.current_id = 65535 ∧ d.opts.rollover = some RolloverMethod.one then 1
      else (d.current_id + 1) % 65536 := by
  by_cases hc : d.current_id = 65535 ∧ d.opts.rollover = some RolloverMethod.one
  · obtain ⟨h1, h2⟩ := hc
    rcases hw : write d.path_handle payload with e | w <;>
      simp [get_handle_packet, hw, send, apply_ite, h1, h2, rolloverVal]
  · rcases hw : write d.path_handle payload with e | w <;>
      simp [get_handle_packet, hw, send, apply_ite, hc]

/-- The PUT handler's counter after a matching, non-final ACK. -/
theorem put_handle_ack_current_id {R : Type} (d : LoopData R (Option Bytes)) (fp r : Bool)
    (hns : ¬(d.data.isSome = true ∧ (d.data.getD []).length < d.opts.block_size)) :
    ((put_handle_packet d fp (.acknowledgment d.current_id) r).1).current_id =
      if d.current_id = 65535 ∧ d.opts.rollover = some RolloverMethod.one then 1
      else (d.current_id + 1) % 65536 := by
  by_cases hc : d.current_id = 65535 ∧ d.opts.rollover = some RolloverMethod.one
  · obtain ⟨h1, h2⟩ := hc
    simp [put_handle_packet, hns, h1, h2, rolloverVal]
  · simp [put_handle_packet, hns, hc]

/-- The PUT handler breaks, untouched, on a matching ACK when the
buffered block is short (`client.rs` lines 136-139). -/
theorem put_handle_ack_short {R : Type} (d : LoopData R (Option Bytes)) (fp r : Bool)
    (hs1 : d.data.isSome = true) (hs2 : (d.data.getD []).length < d.opts.block_size) :
    put_handle_packet d fp (.acknowledgment d.current_id) r = (d, r, .brk) := by
  simp [put_handle_packet, hs1, hs2]

/-- Counterexample to claim C2 as stated: a matching ACK whose buffered
block is short (here the empty final block) completes the transfer
without advancing the counter, so not every matching ACK advances it. -/
def cexPutData : LoopData Bytes (Option Bytes) :=
  { remote_addr := { ip := 1, port := 69 }, opts := TransferOptions.default, current_id := 5,
    resend := false, path_handle := [], data := some [], sent := [] }

/-- Counterexample to claim C2 as stated, at `cexPutData`: the ACK
matches the counter (5), rollover is absent, yet the counter stays 5
rather than advancing to 6. -/
theorem c2_block_counter_counterexample :
    cexPutData.current_id = 5 ∧ cexPutData.opts.rollover = none ∧
    ((put_handle_packet cexPutData false (.acknowledgment 5) false).1).current_id = 5 ∧
    ((put_handle_packet cexPutData false (.acknowledgment 5) false).1).current_id ≠
      (5 + 1) % 65536 := by
  decide

/-- Claim C2, amended: every accepted DATA (GET) advances the counter by
one modulo 65536, except 65535 → 1 when rollover is `to_one`; with
rollover absent or `to_zero`, 65535 is followed by 0.  For PUT the same
holds for every matching ACK that does not complete the transfer; the
terminal matching ACK (short buffered block) breaks without advancing. -/
theorem c2_block_counter_amended :
    (∀ (W : Type) (write : W → Bytes → Except IoError W) (d : LoopData W Unit) (fp r : Bool)
        (payload : Bytes),
      ((get_handle_packet write d fp (.data d.current_id payload) r).1).current_id =
        if d.current_id = 65535 ∧ d.opts.rollover = some RolloverMethod.one then 1
        else (d.current_id + 1) % 65536) ∧
    (∀ (W : Type) (write : W → Bytes → Except IoError W) (d : LoopData W Unit) (fp r : Bool)
        (payload : Bytes),
      d.current_id = 65535 → d.opts.rollover ≠ some RolloverMethod.one →
      ((get_handle_packet write d fp (.data d.current_id payload) r).1).current_id = 0) ∧
    (∀ (R : Type) (d : LoopData R (Option Bytes)) (fp r : Bool),
      ¬(d.data.isSome = true ∧ (d.data.getD []).length < d.opts.block_size) →
      ((put_handle_packet d fp (.acknowledgment d.current_id) r).1).current_id =
        if d.current_id = 65535 ∧ d.opts.rollover = some RolloverMethod.one then 1
        else (d.current_id + 1) % 65536) ∧
    (∀ (R : Type) (d : LoopData R (Option Bytes)) (fp r : Bool),
      d.current_id = 65535 → d.opts.rollover ≠ some RolloverMethod.one →
      ¬(d.data.isSome = true ∧ (d.data.getD []).length < d.opts.block_size) →
      ((put_handle_packet d fp (.acknowledgment d.current_id) r).1).current_id = 0) ∧
    (∀ (R : Type) (d : LoopData R (Option Bytes)) (fp r : Bool),
      d.data.isSome = true → (d.data.getD []).length < d.opts.block_size →
      put_handle_packet d fp (.acknowledgment d.current_id) r = (d, r, .brk)) := by
  refine ⟨fun W write d fp r payload => get_handle_data_current_id write d fp r payload,
    ?_, fun R d fp r hns => put_handle_ack_current_id d fp r hns, ?_,
    fun R d fp r hs1 hs2 => put_handle_ack_short d fp r hs1 hs2⟩
  · intro W write d fp r payload h1 h2
    rw [get_handle_data_current_id write d fp r payload, if_neg (by tauto), h1]
  · intro R d fp r h1 h2 hns
    rw [put_handle_ack_current_id d fp r hns, if_neg (by tauto), h1]

/-- Witness for C2's amended statement at concrete states. -/
theorem c2_block_counter_amended_witness :
    (((get_handle_packet memWrite exGetData false
        (.data exGetData.current_id [7]) false).1).current_id =
      if exGetData.current_id = 65535 ∧ exGetData.opts.rollover = some RolloverMethod.one
      then 1 else (exGetData.current_id + 1) % 65536) ∧
    (put_handle_packet cexPutData false (.acknowledgment cexPutData.current_id) false =
      (cexPutData, false, .brk)) :=
  ⟨c2_block_counter_amended.1 Bytes memWrite exGetData false false [7],
   c2_block_counter_amended.2.2.2.2 Bytes cexPutData false false (by decide) (by decide)⟩

/-! ## Claim C6: receive timeout and timer re-arming -/

/-- Counterexample to claim C6 as stated: the terminal matching ACK of a
PUT (buffered block short) ends the transfer without setting the reset
flag, so the flag is not set on every matching ACK. -/
theorem c6_reset_counterexample :
    cexPutData.current_id = 5 ∧ cexPutData.data.isSome = true ∧
    ((put_handle_packet cexPutData false (.acknowledgment 5) false).2.1 = false) := by
  decide

/-- Claim C6, amended: when the receive timer fires, both roles fail
with `ConnectionAborted "Connection timeout"`; the receive timer is
re-armed exactly in iterations entered with the reset flag set; the
handler sets the reset flag exactly on progress events that continue
the transfer: any accepted in-sequence DATA for GET, and a matching
non-final ACK for PUT (the terminal short-block ACK breaks with the
flag still clear). -/
theorem c6_timeout_reset_amended :
    (∀ (W : Type) (write : W → Bytes → Except IoError W) (s : EngineState W Unit),
      (loop_iter get_loop_start (get_handle_packet write) s .timeout).1 =
        .done (.error connTimeoutError) { s with reset_timeout := false }) ∧
    (∀ (R : Type) (read : R → Nat → Except IoError Bytes × R) (s : EngineState R (Option Bytes)),
      (put_loop_start read s.d).2 = .normal →
      (loop_iter (put_loop_start read) put_handle_packet s .timeout).1 =
        .done (.error connTimeoutError)
          { s with d := (put_loop_start read s.d).1, reset_timeout := false }) ∧
    (∀ (W : Type) (write : W → Bytes → Except IoError W) (s : EngineState W Unit) (ev : Event),
      (loop_iter get_loop_start (get_handle_packet write) s ev).2 = s.reset_timeout) ∧
    (∀ (R : Type) (read : R → Nat → Except IoError Bytes × R) (s : EngineState R (Option Bytes))
        (ev : Event),
      (put_loop_start read s.d).2 = .normal →
      (loop_iter (put_loop_start read) put_handle_packet s ev).2 = s.reset_timeout) ∧
    (∀ (W : Type) (write : W → Bytes → Except IoError W) (d : LoopData W Unit) (fp : Bool)
        (pkt : Packet),
      ((get_handle_packet write d fp pkt false).2.1 = true ↔
        ∃ payload, pkt = .data d.current_id payload)) ∧
    (∀ (R : Type) (d : LoopData R (Option Bytes)) (fp : Bool) (pkt : Packet),
      ((put_handle_packet d fp pkt false).2.1 = true ↔
        (pkt = .acknowledgment d.current_id ∧
          ¬(d.data.isSome = true ∧ (d.data.getD []).length < d.opts.block_size)))) := by
  refine ⟨?_, ?_, ?_, ?_, ?_, ?_⟩
  · intro W write s
    simp [loop_iter, get_loop_start]
  · intro R read s hn
    rcases hps : put_loop_start read s.d with ⟨d1, c⟩
    rw [hps] at hn
    simp only at hn
    subst hn
    simp [loop_iter, hps]
  · intro W write s ev
    cases ev <;> simp [loop_iter, get_loop_start]
  · intro R read s ev hn
    rcases hps : put_loop_start read s.d with ⟨d1, c⟩
    rw [hps] at hn
    simp only at hn
    subst hn
    cases ev <;> simp [loop_iter, hps]
  · intro W write d fp pkt
    cases pkt <;> simp [get_handle_packet, apply_ite]
    case data bid payload =>
      by_cases hb : bid = d.current_id
      · subst hb
        rcases hw : write d.path_handle payload with e | w <;>
          simp [hw, send, apply_ite]
      · rcases hw : write d.path_handle payload with e | w <;>
          simp [hw, send, apply_ite, hb, Ne.symm hb]
  · intro R d fp pkt
    cases pkt <;> simp [put_handle_packet, apply_ite]
    case acknowledgment bid =>
      by_cases hb : bid = d.current_id
      · subst hb
        cases hd : d.data with
        | none => simp [put_handle_packet, hd]
        | some buf =>
          by_cases hl : buf.length < d.opts.block_size <;>
            simp [put_handle_packet, hd, hl]
      · simp [hb, Ne.symm hb]

/-- A concrete PUT engine state whose `loop_start` is a no-op. -/
def cexPutState : EngineState Bytes (Option Bytes) :=
  { d := cexPutData, first := false, reset_timeout := false }

/-- Witness for C6's amended statement at concrete states. -/
theorem c6_timeout_reset_amended_witness :
    ((loop_iter (put_loop_start bufRead) put_handle_packet cexPutState .timeout).1 =
      .done (.error connTimeoutError)
        { cexPutState with d := (put_loop_start bufRead cexPutState.d).1,
                           reset_timeout := false }) ∧
    ((loop_iter (put_loop_start bufRead) put_handle_packet cexPutState .resendTimeout).2 =
      cexPutState.reset_timeout) :=
  ⟨c6_timeout_reset_amended.2.1 Bytes bufRead cexPutState (by decide),
   c6_timeout_reset_amended.2.2.2.1 Bytes bufRead cexPutState .resendTimeout (by decide)⟩

/-! ## Claim C10: option-list decoding is total -/

/-- No byte of the string is NUL. -/
def noZero : Bytes → Bool
  | [] => true
  | b :: rest => (b != 0) && noZero rest

/-- `read_to 0` on a NUL-terminated field returns the field and the
remainder. -/
theorem read_to_append (s rest : Bytes) (h : noZero s = true) :
    read_to 0 (s ++ 0 :: rest) = .ok (s, rest) := by
  induction s with
  | nil => simp [read_to]
  | cons b s ih =>
    simp only [noZero, Bool.and_eq_true, bne_iff_ne, ne_eq] at h
    simp only [List.cons_append, read_to, if_neg h.1]
    rw [show (s.append (0 :: rest)) = s ++ 0 :: rest from rfl, ih h.2]

/-- `read_str` on a NUL-terminated valid-UTF-8 field. -/
theorem read_str_append (s rest : Bytes) (h0 : noZero s = true) (hu : validUtf8 s = true) :
    read_str (s ++ 0 :: rest) = .ok (s, rest) := by
  unfold read_str
  rw [read_to_append s rest h0]
  simp [hu]

/-- The option loop ends at an empty buffer. -/
theorem decode_options_nil (acc : Options) : decode_options [] acc = acc := by
  rw [decode_options.eq_def]
  split
  · rfl
  · rename_i key rest1 h
    simp [read_str, read_to] at h

/-- One well-formed option pair is consumed and inserted (with the key
lowercased), and the loop continues. -/
theorem decode_options_step (k v rest : Bytes) (acc : Options)
    (hk0 : noZero k = true) (hku : validUtf8 k = true)
    (hv0 : noZero v = true) (hvu : validUtf8 v = true) :
    decode_options (k ++ 0 :: (v ++ 0 :: rest)) acc =
      decode_options rest (acc.insert (k.map lowerByte) v) := by
  rw [decode_options.eq_def]
  split
  · rename_i a h
    rw [read_str_append k _ hk0 hku] at h
    exact Except.noConfusion h
  · rename_i key rest1 h
    rw [read_str_append k _ hk0 hku] at h
    simp only [Except.ok.injEq, Prod.mk.injEq] at h
    obtain ⟨hkey, hrest⟩ := h
    subst hkey
    subst hrest
    split
    · rename_i a h2
      rw [read_str_append v _ hv0 hvu] at h2
      exact Except.noConfusion h2
    · rename_i val rest2 h2
      rw [read_str_append v _ hv0 hvu] at h2
      simp only [Except.ok.injEq, Prod.mk.injEq] at h2
      obtain ⟨hval, hrest2⟩ := h2
      subst hval
      subst hrest2
      rfl

/-- A key that is not valid UTF-8 silently ends the option loop. -/
theorem decode_options_key_bad (k rest : Bytes) (acc : Options)
    (h0 : noZero k = true) (hu : validUtf8 k = false) :
    decode_options (k ++ 0 :: rest) acc = acc := by
  rw [decode_options.eq_def]
  split
  · rfl
  · rename_i key rest1 h
    unfold read_str at h
    rw [read_to_append k rest h0] at h
    simp [hu] at h

/-- A key with no following value silently ends the option loop. -/
theorem decode_options_val_missing (k : Bytes) (acc : Options)
    (h0 : noZero k = true) (hu : validUtf8 k = true) :
    decode_options (k ++ [0]) acc = acc := by
  rw [decode_options.eq_def]
  split
  · rfl
  · rename_i key rest1 h
    rw [show k ++ [0] = k ++ 0 :: [] from rfl, read_str_append k [] h0 hu] at h
    simp only [Except.ok.injEq, Prod.mk.injEq] at h
    obtain ⟨hkey, hrest⟩ := h
    subst hkey
    subst hrest
    split
    · rfl
    · rename_i val rest2 h2
      simp [read_str, read_to] at h2

/-- Claim C10: for every mode and every buffer whose first two bytes
encode opcode 6, `decode` returns `Ok` with an `OptionAcknowledgment`;
well-formed pairs are consumed into the map (keys lowercased), while a
malformed pair (bad UTF-8 key, missing value, or empty tail) silently
ends the option list rather than raising a decode error; the option
tails of RRQ and WRQ packets are decoded by the same total loop. -/
theorem c10_option_decoding :
    (∀ (m : Mode) (buf : Bytes),
      decode m (0 :: 6 :: buf) = .ok (.optionAcknowledgment (decode_options buf []))) ∧
    (∀ (k v rest : Bytes) (acc : Options), noZero k = true → validUtf8 k = true →
      noZero v = true → validUtf8 v = true →
      decode_options (k ++ 0 :: (v ++ 0 :: rest)) acc =
        decode_options rest (acc.insert (k.map lowerByte) v)) ∧
    (∀ acc : Options, decode_options [] acc = acc) ∧
    (∀ (k rest : Bytes) (acc : Options), noZero k = true → validUtf8 k = false →
      decode_options (k ++ 0 :: rest) acc = acc) ∧
    (∀ (k : Bytes) (acc : Options), noZero k = true → validUtf8 k = true →
      decode_options (k ++ [0]) acc = acc) ∧
    (∀ (m : Mode) (fname optbuf : Bytes), noZero fname = true → validUtf8 fname = true →
      decode m (0 :: 1 :: (fname ++ 0 :: (strBytes "octet" ++ 0 :: optbuf))) =
        .ok (.readRequest fname .octet (decode_options optbuf []))) ∧
    (∀ (m : Mode) (fname optbuf : Bytes), noZero fname = true → validUtf8 fname = true →
      decode m (0 :: 2 :: (fname ++ 0 :: (strBytes "octet" ++ 0 :: optbuf))) =
        .ok (.writeRequest fname .octet (decode_options optbuf []))) := by
  refine ⟨?_, decode_options_step, decode_options_nil, decode_options_key_bad,
    decode_options_val_missing, ?_, ?_⟩
  · intro m buf
    simp [decode, read_be_u16]
  · intro m fname optbuf h0 hu
    simp only [decode, read_be_u16]
    norm_num
    simp only [decode_request]
    rw [read_str_append fname _ h0 hu]
    dsimp only
    rw [read_str_append (strBytes "octet") optbuf (by decide) (by decide)]
    dsimp only
    rw [show modeFromBytes (strBytes "octet") = some Mode.octet from by decide]
  · intro m fname optbuf h0 hu
    simp only [decode, read_be_u16]
    norm_num
    simp only [decode_request]
    rw [read_str_append fname _ h0 hu]
    dsimp only
    rw [read_str_append (strBytes "octet") optbuf (by decide) (by decide)]
    dsimp only
    rw [show modeFromBytes (strBytes "octet") = some Mode.octet from by decide]

/-- Witness for C10 at concrete buffers. -/
theorem c10_option_decoding_witness :
    (decode_options (strBytes "key" ++ 0 :: (strBytes "val" ++ 0 :: [])) [] =
      decode_options [] (Options.insert [] ((strBytes "key").map lowerByte) (strBytes "val"))) ∧
    (decode_options ([255] ++ 0 :: strBytes "val") [] = []) ∧
    (decode_options (strBytes "key" ++ [0]) [] = []) ∧
    (decode .octet (0 :: 1 :: (strBytes "f" ++ 0 :: (strBytes "octet" ++ 0 :: []))) =
      .ok (.readRequest (strBytes "f") .octet (decode_options [] []))) :=
  ⟨c10_option_decoding.2.1 (strBytes "key") (strBytes "val") [] []
      (by decide) (by decide) (by decide) (by decide),
   c10_option_decoding.2.2.2.1 [255] (strBytes "val") [] (by decide) (by decide),
   c10_option_decoding.2.2.2.2.1 (strBytes "key") [] (by decide) (by decide),
   c10_option_decoding.2.2.2.2.2.1 .octet (strBytes "f") [] (by decide) (by decide)⟩

/-! ## Claim C1: the codec round-trip -/

/-- A string field that survives the codec: no NUL byte, valid UTF-8. -/
def wfStr (s : Bytes) : Bool := noZero s && validUtf8 s

/-- An option key already in its canonical lowercase form. -/
def isLowerKey (k : Bytes) : Bool := decide (k.map lowerByte = k)

/-- The canonical (strictly key-sorted) form of the association-list
embedding of a hash map. -/
def optsPairwiseSorted : Options → Bool
  | [] => true
  | kv :: rest => rest.all (fun kv2 => bytesLt kv.1 kv2.1) && optsPairwiseSorted rest

/-- Well-formedness of an option map for the round-trip: canonical
order, and every key and value NUL-free, valid UTF-8, keys lowercase. -/
def wfOptions (o : Options) : Bool :=
  optsPairwiseSorted o && o.all (fun kv => (wfStr kv.1 && isLowerKey kv.1) && wfStr kv.2)

/-- Well-formedness of a packet for the round-trip: block ids fit in
16 bits, string fields are NUL-free valid UTF-8, option maps are
canonical with lowercase keys.  (In Rust, UTF-8 validity and the 16-bit
bounds hold by construction; NUL-freedom and lowercase keys do not.) -/
def wfPacket : Packet → Bool
  | .readRequest f _ o => wfStr f && wfOptions o
  | .writeRequest f _ o => wfStr f && wfOptions o
  | .data bid _ => decide (bid < 65536)
  | .acknowledgment bid => decide (bid < 65536)
  | .error _ msg => wfStr msg
  | .optionAcknowledgment o => wfOptions o

/-- `bytesLt` is irreflexive. -/
theorem bytesLt_irrefl : ∀ s : Bytes, bytesLt s s = false := by
  intro s
  induction s with
  | nil => rfl
  | cons b rest ih => simp [bytesLt, ih]

/-- `bytesLt` is asymmetric. -/
theorem bytesLt_asymm : ∀ a b : Bytes, bytesLt a b = true → bytesLt b a = false := by
  intro a
  induction a with
  | nil =>
    intro b h
    cases b with
    | nil => simp [bytesLt] at h
    | cons b bs => rfl
  | cons x xs ih =>
    intro b h
    cases b with
    | nil => simp [bytesLt] at h
    | cons y ys =>
      simp only [bytesLt] at h ⊢
      by_cases hxy : x < y
      · simp [show ¬y < x from by omega, hxy]
      · by_cases hyx : y < x
        · simp [hxy, hyx] at h
        · simp only [if_neg hxy, if_neg hyx] at h
          simp only [if_neg hyx, if_neg hxy]
          exact ih ys h

/-- Inserting a key greater than every key of the map appends. -/
theorem insert_append_gt : ∀ (acc : Options) (k v : Bytes),
    (∀ kv ∈ acc, bytesLt kv.1 k = true) →
    Options.insert acc k v = acc ++ [(k, v)] := by
  intro acc
  induction acc with
  | nil => intro k v _; rfl
  | cons kv0 rest ih =>
    intro k v hlt
    obtain ⟨k0, v0⟩ := kv0
    have h0 : bytesLt k0 k = true := hlt (k0, v0) (by simp)
    have hne : k ≠ k0 := by
      intro he
      rw [he] at h0
      rw [bytesLt_irrefl] at h0
      exact Bool.noConfusion h0
    have hnlt : bytesLt k k0 = false := bytesLt_asymm k0 k h0
    simp only [Options.insert, if_neg hne, hnlt, Bool.false_eq_true, if_false,
      List.cons_append, List.cons.injEq, true_and]
    exact ih k v (fun kv hm => hlt kv (by simp [hm]))

/-- Decoding the encoding of a canonical well-formed option map appends
it to the accumulator (the invariant is that every accumulated key is
smaller than every remaining key). -/
theorem decode_options_encode : ∀ (o : Options) (acc : Options),
    wfOptions o = true →
    (∀ kv ∈ acc, ∀ kv2 ∈ o, bytesLt kv.1 kv2.1 = true) →
    decode_options (encode_options o) acc = acc ++ o := by
  intro o
  induction o with
  | nil =>
    intro acc _ _
    simp [encode_options, decode_options_nil]
  | cons kv rest ih =>
    intro acc hwf hinv
    obtain ⟨k, v⟩ := kv
    simp only [wfOptions, optsPairwiseSorted, List.all_cons, Bool.and_eq_true] at hwf
    obtain ⟨⟨hsorthd, hsortrest⟩, ⟨⟨hk, hklow⟩, hv⟩, hallrest⟩ := hwf
    simp only [wfStr, Bool.and_eq_true] at hk hv
    have hklow2 : k.map lowerByte = k := by
      simpa [isLowerKey] using hklow
    rw [show encode_options ((k, v) :: rest) = k ++ 0 :: (v ++ 0 :: encode_options rest) from by
      simp [encode_options]]
    rw [decode_options_step k v _ acc hk.1 hk.2 hv.1 hv.2, hklow2]
    rw [insert_append_gt acc k v (fun kv hm => hinv kv hm (k, v) (by simp))]
    have hwfrest : wfOptions rest = true := by
      simp only [wfOptions, Bool.and_eq_true]
      exact ⟨hsortrest, hallrest⟩
    have hinv2 : ∀ kv ∈ acc ++ [(k, v)], ∀ kv2 ∈ rest, bytesLt kv.1 kv2.1 = true := by
      intro kv hm kv2 hm2
      rcases List.mem_append.mp hm with hmem | hmem
      · exact hinv kv hmem kv2 (by simp [hm2])
      · simp only [List.mem_singleton] at hmem
        subst hmem
        simpa using List.all_eq_true.mp hsorthd kv2 hm2
    rw [ih (acc ++ [(k, v)]) hwfrest hinv2]
    simp

/-- Netascii decoding inverts netascii encoding on every payload. -/
theorem decode_encode_netascii : ∀ d : Bytes,
    decode_netascii (encode_netascii d) = .ok d := by
  intro d
  induction d with
  | nil => rfl
  | cons b rest ih =>
    by_cases h10 : b = 10
    · subst h10
      rw [show encode_netascii (10 :: rest) = 13 :: 10 :: encode_netascii rest from by
        simp [encode_netascii, netascii_encode_byte]]
      rw [show decode_netascii (13 :: 10 :: encode_netascii rest) =
          (decode_netascii (encode_netascii rest)).map (fun t => 10 :: t) from by
        simp [decode_netascii]]
      rw [ih]
      rfl
    · by_cases h13 : b = 13
      · subst h13
        rw [show encode_netascii (13 :: rest) = 13 :: 0 :: encode_netascii rest from by
          simp [encode_netascii, netascii_encode_byte]]
        rw [show decode_netascii (13 :: 0 :: encode_netascii rest) =
            (decode_netascii (encode_netascii rest)).map (fun t => 13 :: t) from by
          simp [decode_netascii]]
        rw [ih]
        rfl
      · rw [show encode_netascii (b :: rest) = b :: encode_netascii rest from by
          simp [encode_netascii, netascii_encode_byte, h10, h13]]
        rw [decode_netascii.eq_def]
        simp only [if_neg h13]
        rw [ih]
        rfl

/-- Reading back a 16-bit value written big-endian. -/
theorem read_be_u16_append (n : Nat) (h : n < 65536) (rest : Bytes) :
    read_be_u16 (write_be_u16 n ++ rest) = .ok (n, rest) := by
  have h1 : n / 256 < 256 := by omega
  simp only [write_be_u16, List.cons_append, List.nil_append, read_be_u16,
    Except.ok.injEq, Prod.mk.injEq, Nat.mod_eq_of_lt h1]
  refine ⟨?_, trivial⟩
  omega

/-- The mode strings are NUL-free and valid UTF-8, and parse back. -/
theorem mode_bytes_roundtrip (m : Mode) :
    noZero (mode_bytes m) = true ∧ validUtf8 (mode_bytes m) = true ∧
      modeFromBytes (mode_bytes m) = some m := by
  cases m <;> exact ⟨by decide, by decide, by decide⟩

/-- Error codes fit in 16 bits and parse back. -/
theorem errCode_roundtrip (e : TftpError) :
    errCode e < 65536 ∧ errFromCode (errCode e) = some e := by
  cases e <;> exact ⟨by decide, rfl⟩

/-- Claim C1, amended: `decode (m, encode (m, P)) = Ok P` for every mode
and every packet `P` whose string fields (filename, error message,
option keys and values) contain no NUL byte, and whose option maps are
in canonical form with keys already lowercase.  (Block ids below 65536
and UTF-8-valid strings are implicit in the Rust types.)  Without those
restrictions the round-trip fails, e.g. for an uppercase option key. -/
theorem c1_roundtrip_amended (m : Mode) (p : Packet) (h : wfPacket p = true) :
    decode m (encode m p) = .ok p := by
  cases p with
  | readRequest f mm o =>
    simp only [wfPacket, Bool.and_eq_true, wfStr] at h
    obtain ⟨⟨hf0, hfu⟩, hwo⟩ := h
    obtain ⟨hm0, hmu, hmm⟩ := mode_bytes_roundtrip mm
    simp only [encode, Packet.opcodeVal]
    rw [show write_be_u16 1 ++ (f ++ [0] ++ mode_bytes mm ++ [0] ++ encode_options o) =
        0 :: 1 :: (f ++ 0 :: (mode_bytes mm ++ 0 :: encode_options o)) from by
      simp [write_be_u16]]
    simp only [decode, read_be_u16]
    norm_num
    simp only [decode_request]
    rw [read_str_append f _ hf0 hfu]
    dsimp only
    rw [read_str_append (mode_bytes mm) _ hm0 hmu]
    dsimp only
    rw [decode_options_encode o [] hwo (by simp), hmm]
    dsimp only
    simp
  | writeRequest f mm o =>
    simp only [wfPacket, Bool.and_eq_true, wfStr] at h
    obtain ⟨⟨hf0, hfu⟩, hwo⟩ := h
    obtain ⟨hm0, hmu, hmm⟩ := mode_bytes_roundtrip mm
    simp only [encode, Packet.opcodeVal]
    rw [show write_be_u16 2 ++ (f ++ [0] ++ mode_bytes mm ++ [0] ++ encode_options o) =
        0 :: 2 :: (f ++ 0 :: (mode_bytes mm ++ 0 :: encode_options o)) from by
      simp [write_be_u16]]
    simp only [decode, read_be_u16]
    norm_num
    simp only [decode_request]
    rw [read_str_append f _ hf0 hfu]
    dsimp only
    rw [read_str_append (mode_bytes mm) _ hm0 hmu]
    dsimp only
    rw [decode_options_encode o [] hwo (by simp), hmm]
    dsimp only
    simp
  | data bid payload =>
    have hb : bid < 65536 := by simpa [wfPacket] using h
    cases m with
    | octet =>
      rw [show encode .octet (.data bid payload) =
          0 :: 3 :: (write_be_u16 bid ++ payload) from by
        simp [encode, write_be_u16, Packet.opcodeVal]]
      simp only [decode]
      rw [show read_be_u16 (0 :: 3 :: (write_be_u16 bid ++ payload)) =
          .ok (3, write_be_u16 bid ++ payload) from rfl]
      dsimp only
      norm_num
      rw [read_be_u16_append bid hb payload]
      rfl
    | netAscii =>
      rw [show encode .netAscii (.data bid payload) =
          0 :: 3 :: (write_be_u16 bid ++ encode_netascii payload) from by
        simp [encode, write_be_u16, Packet.opcodeVal]]
      simp only [decode]
      rw [show read_be_u16 (0 :: 3 :: (write_be_u16 bid ++ encode_netascii payload)) =
          .ok (3, write_be_u16 bid ++ encode_netascii payload) from rfl]
      dsimp only
      norm_num
      rw [read_be_u16_append bid hb (encode_netascii payload)]
      dsimp only
      rw [decode_encode_netascii payload]
  | acknowledgment bid =>
    have hb : bid < 65536 := by simpa [wfPacket] using h
    rw [show encode m (.acknowledgment bid) = 0 :: 4 :: (write_be_u16 bid ++ []) from by
      simp [encode, write_be_u16, Packet.opcodeVal]]
    simp only [decode]
    rw [show read_be_u16 (0 :: 4 :: (write_be_u16 bid ++ [])) =
        .ok (4, write_be_u16 bid ++ []) from rfl]
    dsimp only
    norm_num
    rw [show read_be_u16 (write_be_u16 bid) = Except.ok (bid, ([] : Bytes)) from by
      simpa using read_be_u16_append bid hb []]
  | error e msg =>
    simp only [wfPacket, Bool.and_eq_true, wfStr] at h
    obtain ⟨hm0, hmu⟩ := h
    obtain ⟨hcode, hparse⟩ := errCode_roundtrip e
    rw [show encode m (.error e msg) =
        0 :: 5 :: (write_be_u16 (errCode e) ++ (msg ++ 0 :: [])) from by
      simp [encode, write_be_u16, Packet.opcodeVal]]
    simp only [decode]
    rw [show read_be_u16 (0 :: 5 :: (write_be_u16 (errCode e) ++ (msg ++ 0 :: []))) =
        .ok (5, write_be_u16 (errCode e) ++ (msg ++ 0 :: [])) from rfl]
    dsimp only
    norm_num
    rw [read_be_u16_append (errCode e) hcode (msg ++ 0 :: [])]
    dsimp only
    rw [read_str_append msg [] hm0 hmu]
    dsimp only
    rw [hparse]
  | optionAcknowledgment o =>
    simp only [wfPacket] at h
    simp only [encode, Packet.opcodeVal]
    rw [show write_be_u16 6 ++ encode_options o = 0 :: 6 :: encode_options o from by
      simp [write_be_u16]]
    simp only [decode, read_be_u16]
    norm_num
    rw [decode_options_encode o [] h (by simp)]
    rfl

/-- The packet breaking the round-trip as claimed: an OACK whose option
key is not lowercase. -/
def pBadKey : Packet := .optionAcknowledgment [(strBytes "Key", strBytes "Val")]

/-- Counterexample to claim C1 as stated: decoding lowercases option
keys (`to_ascii_lower` in `decode_options`), so the round-trip changes
the key "Key" to "key" and does not return the original packet. -/
theorem c1_roundtrip_counterexample :
    decode .octet (encode .octet pBadKey) ≠ .ok pBadKey := by
  have hshape : encode .octet pBadKey =
      0 :: 6 :: (strBytes "Key" ++ 0 :: (strBytes "Val" ++ 0 :: [])) := by decide
  rw [hshape]
  have h1 : decode .octet (0 :: 6 :: (strBytes "Key" ++ 0 :: (strBytes "Val" ++ 0 :: []))) =
      .ok (.optionAcknowledgment
        (decode_options (strBytes "Key" ++ 0 :: (strBytes "Val" ++ 0 :: [])) [])) := by
    simp [decode, read_be_u16]
  rw [h1, decode_options_step _ _ _ _ (by decide) (by decide) (by decide) (by decide),
    decode_options_nil]
  rw [show Options.insert [] ((strBytes "Key").map lowerByte) (strBytes "Val") =
      [(strBytes "key", strBytes "Val")] from by decide]
  decide

/-! ## Claim C5: PUT termination -/

/-- The PUT engine step of `put_internal` with the in-memory source. -/
def put_step : EngineState (List Nat) (Option Bytes) → Event →
    StepResult (List Nat) (Option Bytes) × Bool :=
  loop_iter (put_loop_start bufRead) put_handle_packet

/-- `put_internal` is the runner over `put_step`. -/
theorem put_internal_eq_run (remote : SocketAddr) (path : Bytes) (opts : TransferOptions)
    (src : List Nat) (events : List Event) :
    put_internal remote path opts src events =
      run put_step
        { d := { remote_addr := remote
                 opts := opts
                 current_id := 0
                 resend := false
                 path_handle := src
                 data := none
                 sent := [(remote, .writeRequest path opts.mode opts.to_options)] }
          first := true
          reset_timeout := false }
        events := rfl

/-- The `i`-th outbound 512-byte chunk of a source (1-based). -/
def chunk (src : List Nat) (i : Nat) : Bytes := (src.drop ((i - 1) * 512)).take 512

/-- The steady state of a default-options PUT session: block `i - 1` has
been acknowledged and block `i` is about to be read and sent. -/
def putMid (A : SocketAddr) (src : List Nat) (sent : List (SocketAddr × Packet)) (i : Nat) :
    EngineState (List Nat) (Option Bytes) :=
  { d := { remote_addr := A, opts := TransferOptions.default, current_id := i, resend := true,
           path_handle := src.drop ((i - 1) * 512), data := none, sent := sent },
    first := false, reset_timeout := true }

/-- The state in which a default-options PUT of `k * 512` source bytes
terminates successfully. -/
def putFinalState (A : SocketAddr) (path : Bytes) (o : TransferOptions) (src : List Nat)
    (k : Nat) : EngineState (List Nat) (Option Bytes) :=
  { d := { remote_addr := A, opts := TransferOptions.default, current_id := k + 1,
           resend := false, path_handle := [], data := some [],
           sent := (A, .writeRequest path o.mode o.to_options) ::
             ((List.range' 1 k).map (fun j => (A, .data j (chunk src j))) ++
               [(A, .data (k + 1) [])]) },
    first := false, reset_timeout := false }

/-- The first ACK (block 0) of a PUT session moves the engine from the
initial state to the steady state for block 1, resetting the options to
the defaults. -/
theorem put_step_initial (A : SocketAddr) (o : TransferOptions) (src : List Nat)
    (sent0 : List (SocketAddr × Packet)) :
    put_step
      { d := { remote_addr := A, opts := o, current_id := 0, resend := false,
               path_handle := src, data := none, sent := sent0 },
        first := true, reset_timeout := false } (.packet A (.acknowledgment 0)) =
      (.next (putMid A src sent0 1), false) := by
  simp [put_step, loop_iter, put_loop_start, receive_packet_step, process_packet,
    dispatch_result, put_handle_packet, putMid, Packet.isOptionAck, TransferOptions.default]

/-- One steady-state round of a default-options PUT: on receiving
`ACK i` (with `i ≤ k`, block `i` full), the engine sends `Data i`
(the `i`-th chunk), advances to `i + 1`, and re-arms the receive timer. -/
theorem put_step_mid (A : SocketAddr) (src : List Nat) (sent : List (SocketAddr × Packet))
    (k i : Nat) (hlen : src.length = k * 512) (h1 : 1 ≤ i) (hik : i ≤ k) (hk : k ≤ 65534) :
    put_step (putMid A src sent i) (.packet A (.acknowledgment i)) =
      (.next (putMid A src (sent ++ [(A, .data i (chunk src i))]) (i + 1)), true) := by
  have hrem : (src.drop ((i - 1) * 512)).length = (k - (i - 1)) * 512 := by
    simp only [List.length_drop, hlen]
    omega
  have hne : (src.drop ((i - 1) * 512)).isEmpty = false := by
    rw [List.isEmpty_eq_false_iff_exists_mem]
    rcases hd : src.drop ((i - 1) * 512) with _ | ⟨b, rest⟩
    · rw [hd] at hrem
      simp at hrem
      omega
    · exact ⟨b, by simp⟩
  have hread : bufRead (src.drop ((i - 1) * 512)) 512 =
      (.ok (chunk src i), src.drop (i * 512)) := by
    unfold bufRead
    rw [hne]
    simp only [Bool.false_eq_true, if_false, chunk, List.drop_drop]
    rw [show (i - 1) * 512 + 512 = i * 512 from by omega]
  have hchunklen : (chunk src i).length = 512 := by
    simp only [chunk, List.length_take, List.length_drop, hlen]
    omega
  have hmod : (i + 1) % 65536 = i + 1 := Nat.mod_eq_of_lt (by omega)
  have hls : put_loop_start bufRead (putMid A src sent i).d =
      ({ remote_addr := A, opts := TransferOptions.default, current_id := i, resend := false,
         path_handle := src.drop (i * 512), data := some (chunk src i),
         sent := sent ++ [(A, .data i (chunk src i))] }, .normal) := by
    simp [put_loop_start, putMid, put_fill_data, read_block, hread, send,
      TransferOptions.default]
  simp only [put_step, loop_iter, hls]
  simp [receive_packet_step, process_packet, dispatch_result, put_handle_packet, putMid,
    hchunklen, hmod, send, TransferOptions.default, Packet.isOptionAck]

/-- The final round of a default-options PUT of `k * 512` bytes: the
source is exhausted, so the engine sends the empty block `k + 1`, and
its ACK terminates the session successfully. -/
theorem put_step_final (A : SocketAddr) (path : Bytes) (o : TransferOptions) (src : List Nat)
    (k : Nat) (hlen : src.length = k * 512) :
    put_step (putMid A src ((A, .writeRequest path o.mode o.to_options) ::
        (List.range' 1 k).map (fun j => (A, .data j (chunk src j)))) (k + 1))
      (.packet A (.acknowledgment (k + 1))) =
      (.done (.ok ()) (putFinalState A path o src k), true) := by
  have hdrop : src.drop (k * 512) = [] := by
    apply List.drop_eq_nil_of_le
    omega
  have hread : bufRead (src.drop (k * 512)) 512 = (.error eofError, []) := by
    rw [hdrop]
    rfl
  have hls : put_loop_start bufRead (putMid A src ((A, .writeRequest path o.mode o.to_options) ::
      (List.range' 1 k).map (fun j => (A, .data j (chunk src j)))) (k + 1)).d =
      ({ remote_addr := A, opts := TransferOptions.default, current_id := k + 1,
         resend := false, path_handle := [], data := some [],
         sent := ((A, .writeRequest path o.mode o.to_options) ::
           (List.range' 1 k).map (fun j => (A, .data j (chunk src j)))) ++
             [(A, .data (k + 1) [])] }, .normal) := by
    simp [put_loop_start, putMid, put_fill_data, read_block, hread, send, eofError,
      TransferOptions.default]
  simp only [put_step, loop_iter, hls]
  simp [receive_packet_step, process_packet, dispatch_result, put_handle_packet, putMid,
    putFinalState, send, TransferOptions.default, Packet.isOptionAck]

/-- Running the loop over concatenated event lists. -/
theorem run_append {T D : Type} (step : EngineState T D → Event → StepResult T D × Bool) :
    ∀ (es1 : List Event) (s s1 : EngineState T D) (es2 : List Event),
    run step s es1 = .running s1 →
    run step s (es1 ++ es2) = run step s1 es2 := by
  intro es1
  induction es1 with
  | nil =>
    intro s s1 es2 h
    simp only [run] at h
    cases h
    rfl
  | cons e es ih =>
    intro s s1 es2 h
    simp only [run] at h ⊢
    rcases hs : step s e with ⟨res, b⟩
    rw [hs] at h
    cases res with
    | done r s2 => exact absurd h (by simp)
    | next s2 => exact ih s2 s1 es2 h

/-- Running the steady state over `ACK i .. ACK (i+m-1)` (all full
blocks) stays running and sends the corresponding chunks. -/
theorem put_run_mid (A : SocketAddr) (src : List Nat) (k : Nat)
    (hlen : src.length = k * 512) (hk : k ≤ 65534) :
    ∀ (m i : Nat) (sent : List (SocketAddr × Packet)), 1 ≤ i → i + m ≤ k + 1 →
    run put_step (putMid A src sent i)
        ((List.range' i m).map (fun j => .packet A (.acknowledgment j))) =
      .running (putMid A src
        (sent ++ (List.range' i m).map (fun j => (A, .data j (chunk src j)))) (i + m)) := by
  intro m
  induction m with
  | zero =>
    intro i sent h1 him
    simp [run]
  | succ m ih =>
    intro i sent h1 him
    rw [List.range'_succ]
    simp only [List.map_cons, run]
    rw [put_step_mid A src sent k i hlen h1 (by omega) hk]
    dsimp only
    rw [ih (i + 1) (sent ++ [(A, Packet.data i (chunk src i))]) (by omega) (by omega)]
    rw [show i + 1 + m = i + (m + 1) from by omega]
    simp [List.append_assoc]

/-- Claim C5: PUT termination.  (a) A matching ACK with a short buffered
block terminates the transfer (Break) before the counter is advanced,
leaving the whole loop data untouched.  (b) Consequently, a
default-options session whose source length is an exact multiple
`k * 512` of the block size sends full blocks `1..k` followed by one
final zero-length `Data (k+1)`, terminates successfully exactly on
`ACK (k+1)`, and is still running after any proper prefix of the ACK
stream. -/
theorem c5_put_termination :
    (∀ (R : Type) (d : LoopData R (Option Bytes)) (fp r : Bool),
      d.data.isSome = true → (d.data.getD []).length < d.opts.block_size →
      put_handle_packet d fp (.acknowledgment d.current_id) r = (d, r, .brk)) ∧
    (∀ (A : SocketAddr) (path : Bytes) (o : TransferOptions) (src : List Nat) (k : Nat),
      src.length = k * 512 → k ≤ 65534 →
      (put_internal A path o src
          ((List.range (k + 2)).map (fun j => .packet A (.acknowledgment j))) =
        .finished (.ok ()) (putFinalState A path o src k)) ∧
      (∀ m, m < k + 2 → ∃ s, put_internal A path o src
          ((List.range m).map (fun j => .packet A (.acknowledgment j))) = .running s)) := by
  constructor
  · intro R d fp r hs1 hs2
    exact put_handle_ack_short d fp r hs1 hs2
  · intro A path o src k hlen hk
    have hinit : run put_step
        { d := { remote_addr := A, opts := o, current_id := 0, resend := false,
                 path_handle := src, data := none,
                 sent := [(A, .writeRequest path o.mode o.to_options)] },
          first := true, reset_timeout := false }
        [Event.packet A (Packet.acknowledgment 0)] =
        .running (putMid A src [(A, .writeRequest path o.mode o.to_options)] 1) := by
      simp only [run]
      rw [put_step_initial A o src [(A, Packet.writeRequest path o.mode o.to_options)]]
    constructor
    · rw [put_internal_eq_run]
      rw [show (List.range (k + 2)).map (fun j => Event.packet A (.acknowledgment j)) =
          [Event.packet A (.acknowledgment 0)] ++
            ((List.range' 1 k).map (fun j => Event.packet A (.acknowledgment j)) ++
              [Event.packet A (.acknowledgment (k + 1))]) from by
        rw [List.range_eq_range', List.range'_succ,
          show List.range' 1 (k + 1) = List.range' 1 k ++ [k + 1] from by
            rw [List.range'_concat, one_mul, Nat.add_comm 1 k]]
        simp]
      rw [run_append put_step _ _ _ _ hinit]
      rw [run_append put_step _ _ _ _
        (put_run_mid A src k hlen hk k 1 [(A, .writeRequest path o.mode o.to_options)]
          (by omega) (by omega))]
      rw [show 1 + k = k + 1 from by omega]
      simp only [run, List.singleton_append]
      rw [put_step_final A path o src k hlen]
    · intro m hm
      cases m with
      | zero => exact ⟨_, rfl⟩
      | succ m =>
        refine ⟨putMid A src ([(A, .writeRequest path o.mode o.to_options)] ++
          (List.range' 1 m).map (fun j => (A, Packet.data j (chunk src j)))) (1 + m), ?_⟩
        rw [put_internal_eq_run]
        rw [show (List.range (m + 1)).map (fun j => Event.packet A (.acknowledgment j)) =
            [Event.packet A (.acknowledgment 0)] ++
              (List.range' 1 m).map (fun j => Event.packet A (.acknowledgment j)) from by
          rw [List.range_eq_range', List.range'_succ]
          simp]
        rw [run_append put_step _ _ _ _ hinit]
        rw [put_run_mid A src k hlen hk m 1 [(A, .writeRequest path o.mode o.to_options)]
          (by omega) (by omega)]

/-- Witness for C5 at a concrete short-block state and the k = 0 run. -/
theorem c5_put_termination_witness :
    (put_handle_packet cexPutData false (.acknowledgment cexPutData.current_id) false =
      (cexPutData, false, .brk)) ∧
    (put_internal exAddr (strBytes "/path") TransferOptions.default []
        ((List.range 2).map (fun j => .packet exAddr (.acknowledgment j))) =
      .finished (.ok ()) (putFinalState exAddr (strBytes "/path") TransferOptions.default [] 0)) ∧
    (∃ s, put_internal exAddr (strBytes "/path") TransferOptions.default []
        ((List.range 1).map (fun j => .packet exAddr (.acknowledgment j))) = .running s) :=
  ⟨c5_put_termination.1 Bytes cexPutData false false (by decide) (by decide),
   (c5_put_termination.2 exAddr (strBytes "/path") TransferOptions.default [] 0
      rfl (by decide)).1,
   (c5_put_termination.2 exAddr (strBytes "/path") TransferOptions.default [] 0
      rfl (by decide)).2 1 (by decide)⟩

/-- Witness for C1's amended statement at a concrete packet. -/
theorem c1_roundtrip_amended_witness :
    wfPacket (.readRequest (strBytes "file.ext") .octet
      [(strBytes "blksize", strBytes "1024")]) = true ∧
    decode .netAscii (encode .netAscii (.readRequest (strBytes "file.ext") .octet
      [(strBytes "blksize", strBytes "1024")])) =
      .ok (.readRequest (strBytes "file.ext") .octet [(strBytes "blksize", strBytes "1024")]) :=
  ⟨by decide,
   c1_roundtrip_amended .netAscii
     (.readRequest (strBytes "file.ext") .octet [(strBytes "blksize", strBytes "1024")])
     (by decide)⟩

end Tftp
